import Mathlib

/-!
Verification of the GOST document structure compiler
(docs/scripts/builders/gost_shared.py): the placeholder resolver
(GOSTDataProcessor), the numbering allocator and TOC collector
(GOSTTOCGenerator), the section tree walker and emitter
(GOSTSectionProcessor), the list formatter (GOSTFormatter) and the
structural validator (GOSTValidator), shallowly embedded in Lean.

Conventions of the embedding:
  - Python strings are Lean String values; a missing string field and an
    empty string field are both modelled as "" exactly when the source
    only tests the field for truthiness (node.get with a default of "").
  - Python exceptions are Except Unit: Except.error () means the call
    raises; the source has no handlers on these paths.
  - Dictionaries are association lists; assignment prepends, lookup takes
    the first (therefore newest) binding, which matches overwriting.
  - Sibling arrays of the section tree are a Forest (nil or cons), the
    direct translation of iterating a Python list of child nodes.
-/

/-- Characters stripped by str.strip and matched by the regex class \s. -/
def isPySpace (c : Char) : Bool :=
  c = ' ' || c = '\t' || c = '\n' || c = '\r' || c = '\x0b' || c = '\x0c'

/-- List form of Python str.strip (both ends). -/
def pyStripList (l : List Char) : List Char :=
  ((l.dropWhile isPySpace).reverse.dropWhile isPySpace).reverse

/-- Python str.strip on a String. -/
def pyStrip (s : String) : String :=
  ⟨pyStripList s.data⟩

/-- Replacement of every maximal run of whitespace by a single space,
as re.sub applied with pattern \s+ and a one-space replacement
(gost_shared.py line 665); the flag records whether the previous
character was inside a run already replaced. -/
def collapseRuns : Bool → List Char → List Char
  | _, [] => []
  | prev, c :: rest =>
      if isPySpace c then
        if prev then collapseRuns true rest else ' ' :: collapseRuns true rest
      else c :: collapseRuns false rest

/-- Whitespace collapsing on a String. -/
def collapseWS (s : String) : String :=
  ⟨collapseRuns false s.data⟩

/-- Accumulating decimal parser over ASCII digits. -/
def parseDigitsAux : List Char → Nat → Option Nat
  | [], acc => some acc
  | c :: rest, acc =>
      if c.isDigit then parseDigitsAux rest (acc * 10 + (c.toNat - 48)) else none

/-- Decimal parser: at least one digit required. -/
def parseDigits (l : List Char) : Option Nat :=
  if l.isEmpty then none else parseDigitsAux l 0

/-- Python int() applied to a string: surrounding whitespace is ignored,
an optional sign precedes ASCII digits; none models ValueError. -/
def parsePyInt (s : String) : Option Int :=
  match pyStripList s.data with
  | '-' :: ds => (parseDigits ds).map (fun n => -(n : Int))
  | '+' :: ds => (parseDigits ds).map (fun n => (n : Int))
  | ds => (parseDigits ds).map (fun n => (n : Int))

mutual
/-- Model of the Python values reachable from the merged YAML data
mapping handed to GOSTDataProcessor: strings, integers, lists and
string-keyed dictionaries. -/
inductive Val where
  | str (s : String)
  | intv (n : Int)
  | list (xs : ValItems)
  | dict (entries : ValEntries)
deriving DecidableEq

/-- Elements of a Python list value, in order. -/
inductive ValItems where
  | nil
  | cons (v : Val) (rest : ValItems)
deriving DecidableEq

/-- Entries of a Python dictionary value, in insertion order. -/
inductive ValEntries where
  | nil
  | cons (k : String) (v : Val) (rest : ValEntries)
deriving DecidableEq
end

/-- First binding of a key in a dictionary (Python dict lookup; keys of
a Python dict are unique, so first is the only one). -/
def lookupStr (k : String) : ValEntries → Option Val
  | .nil => none
  | .cons k2 v rest => if k2 = k then some v else lookupStr k rest

/-- Number of elements of a list value. -/
def itemsLength : ValItems → Nat
  | .nil => 0
  | .cons _ rest => itemsLength rest + 1

/-- Element of a list value at a nonnegative position. -/
def itemsGet? : ValItems → Nat → Option Val
  | .nil, _ => none
  | .cons v _, 0 => some v
  | .cons _ rest, n + 1 => itemsGet? rest n

/-- Python membership test of a string inside a list value: an element
equal to the string (elements of other types compare unequal). -/
def itemsHasStr (s : String) : ValItems → Bool
  | .nil => false
  | .cons (.str t) rest => t = s || itemsHasStr s rest
  | .cons _ rest => itemsHasStr s rest

mutual
/-- Python repr of a value: strings in single quotes, containers with
their elements in repr form. -/
def pyRepr : Val → String
  | .str s => "\x27" ++ s ++ "\x27"
  | .intv n => toString n
  | .list xs => "[" ++ String.intercalate ", " (pyReprItems xs) ++ "]"
  | .dict es => "\x7b" ++ String.intercalate ", " (pyReprEntries es) ++ "\x7d"

/-- Reprs of the elements of a list value. -/
def pyReprItems : ValItems → List String
  | .nil => []
  | .cons v rest => pyRepr v :: pyReprItems rest

/-- Reprs of the entries of a dictionary value. -/
def pyReprEntries : ValEntries → List String
  | .nil => []
  | .cons k v rest => ("\x27" ++ k ++ "\x27: " ++ pyRepr v) :: pyReprEntries rest
end

/-- Python str() of a value: a string is itself, containers render as
their repr. -/
def pythonStr : Val → String
  | .str s => s
  | v => pyRepr v

/-- Prefix test on character lists. -/
def isPrefixList : List Char → List Char → Bool
  | [], _ => true
  | _ :: _, [] => false
  | a :: as, b :: bs => a = b && isPrefixList as bs

/-- Contiguous-substring test on character lists: Python membership of
one string inside another; the empty needle is always contained. -/
def isInfixList (needle : List Char) : List Char → Bool
  | [] => isPrefixList needle []
  | c :: rest => isPrefixList needle (c :: rest) || isInfixList needle rest

/-- One level of value + metadata unwrapping: a dictionary holding the
conventional key named value yields that nested value
(get_nested_value, lines 640-641). -/
def unwrapValue (v : Val) : Val :=
  match v with
  | .dict es => (lookupStr "value" es).getD v
  | _ => v

/-- One dotted-path step without brackets (get_nested_value, lines
634-638): on a dictionary this is key lookup (none is a miss); Python
evaluates part in current even on non-dictionaries, and indexing a
string or list with a string key raises TypeError, as does the
membership test on an integer. -/
def plainStep (part : String) (cur : Val) : Except Unit (Option Val) :=
  match cur with
  | .dict es => .ok (lookupStr part es)
  | .list xs => if itemsHasStr part xs then .error () else .ok none
  | .str s => if isInfixList part.data s.data then .error () else .ok none
  | .intv _ => .error ()

/-- One dotted-path step for a segment containing both an opening and a
closing square bracket (get_nested_value, lines 626-633): the key is
the text before the first opening bracket, the index the text between
the first opening and the first closing bracket, parsed by int()
(ValueError propagates); a dictionary key holding a list is indexed
when the index is below its length, any other shape is a miss, and the
membership test on a non-dictionary behaves as in plainStep. -/
def bracketStep (part : String) (cur : Val) : Except Unit (Option Val) :=
  let cs := part.data
  let key_part : String := ⟨cs.takeWhile (fun c => c ≠ '[')⟩
  let i1 := cs.findIdx (fun c => c = '[')
  let i2 := cs.findIdx (fun c => c = ']')
  let idxText : String := ⟨(cs.drop (i1 + 1)).take (i2 - (i1 + 1))⟩
  match parsePyInt idxText with
  | none => .error ()
  | some idx =>
      match cur with
      | .dict es =>
          match lookupStr key_part es with
          | some (.list xs) =>
              if idx < (itemsLength xs : Int) then
                if 0 ≤ idx then
                  match itemsGet? xs idx.toNat with
                  | some v => .ok (some v)
                  | none => .error ()
                else
                  if 0 ≤ (itemsLength xs : Int) + idx then
                    match itemsGet? xs ((itemsLength xs : Int) + idx).toNat with
                    | some v => .ok (some v)
                    | none => .error ()
                  else .error ()
              else .ok none
          | some _ => .ok none
          | none => .ok none
      | .list xs => if itemsHasStr key_part xs then .error () else .ok none
      | .str s => if isInfixList key_part.data s.data then .error () else .ok none
      | .intv _ => .error ()

/-- Dispatch of one path segment on bracket presence
(get_nested_value, line 626). -/
def pathStep (part : String) (cur : Val) : Except Unit (Option Val) :=
  if ('[' ∈ part.data) ∧ (']' ∈ part.data) then bracketStep part cur
  else plainStep part cur

/-- Splitting a character list on dots, accumulating the current
segment in reverse; Python str.split of the empty string yields one
empty segment. -/
def splitDotsAux (cur : List Char) : List Char → List String
  | [] => [⟨cur.reverse⟩]
  | '.' :: rest => ⟨cur.reverse⟩ :: splitDotsAux [] rest
  | c :: rest => splitDotsAux (c :: cur) rest

/-- Python str.split applied with a dot separator
(get_nested_value, line 622). -/
def splitDots (s : String) : List String :=
  splitDotsAux [] s.data

/-- Iteration of get_nested_value over the split path: a miss at any
segment is a miss of the whole lookup, an exception propagates. -/
def walkParts : List String → Val → Except Unit (Option Val)
  | [], cur => .ok (some cur)
  | p :: rest, cur =>
      match pathStep p cur with
      | .error () => .error ()
      | .ok none => .ok none
      | .ok (some nxt) => walkParts rest nxt

/-- GOSTDataProcessor.get_nested_value (lines 620-643): the dotted path
is split on dots, walked from the data mapping, and the final value is
unwrapped once through the conventional value key. -/
def get_nested_value (data : ValEntries) (path : String) :
    Except Unit (Option Val) :=
  match walkParts (splitDots path) (Val.dict data) with
  | .error () => .error ()
  | .ok none => .ok none
  | .ok (some v) => .ok (some (unwrapValue v))

/-- Acceptance test for the text between a pair of double opening braces
and a candidate pair of double closing braces, mirroring what the
pattern used at line 662 can match there: the pattern core (one or more
arbitrary non-newline characters, lazily matched) must cover everything
between edge whitespace, so the region matches exactly when its
stripped core contains no newline, or, when the region is whitespace
only, it contains some non-newline character. -/
def regionOK (region : List Char) : Bool :=
  let core := pyStripList region
  if core.isEmpty then region.any (fun c => c ≠ '\n')
  else ! core.contains '\n'

/-- Search for the closing double brace of a token: chars are shifted
into the accumulated region until a pair of closing braces ends a
region accepted by regionOK; a rejected candidate shifts one closing
brace into the region and continues, as the lazy pattern does. -/
def findEnd : List Char → List Char → Option (List Char × List Char)
  | acc, '}' :: '}' :: rest =>
      if regionOK acc.reverse then some (acc.reverse, rest)
      else findEnd ('}' :: acc) ('}' :: rest)
  | acc, c :: rest => findEnd (c :: acc) rest
  | _, [] => none
termination_by _ l => l.length

/-- The remainder returned by findEnd is strictly shorter than its
input, which bounds the scanner recursion. -/
theorem findEnd_shrink (acc l : List Char) (r rest' : List Char)
    (h : findEnd acc l = some (r, rest')) : rest'.length < l.length := by
  induction acc, l using findEnd.induct with
  | case1 acc rest hok =>
      rw [findEnd, if_pos hok] at h
      cases h
      simp only [List.length_cons]
      omega
  | case2 acc rest hok ih =>
      rw [findEnd, if_neg hok] at h
      simpa using Nat.lt_succ_of_lt (ih h)
  | case3 acc c rest hne ih =>
      rw [findEnd] at h
      · exact Nat.lt_succ_of_lt (ih h)
      · exact hne
  | case4 acc => rw [findEnd] at h; cases h

/-- Single left-to-right substitution pass of re.sub at line 662: at a
pair of opening braces the matching end is searched; on success the
stripped region is looked up through get_nested_value (an exception
propagates, a miss substitutes the empty string, a hit substitutes the
str() of the value) and scanning resumes after the token without
rescanning the replacement; without a matching end the first opening
brace is emitted and scanning resumes at the second. -/
def scanSub (data : ValEntries) : List Char → Except Unit (List Char)
  | [] => .ok []
  | '{' :: '{' :: rest =>
      (match h : findEnd [] rest with
      | some (region, rest') =>
          match get_nested_value data ⟨pyStripList region⟩ with
          | .error () => .error ()
          | .ok none =>
              match scanSub data rest' with
              | .error () => .error ()
              | .ok tail => .ok tail
          | .ok (some v) =>
              match scanSub data rest' with
              | .error () => .error ()
              | .ok tail => .ok ((pythonStr v).data ++ tail)
      | none =>
          match scanSub data ('{' :: rest) with
          | .error () => .error ()
          | .ok tail => .ok ('{' :: tail))
  | c :: rest =>
      match scanSub data rest with
      | .error () => .error ()
      | .ok tail => .ok (c :: tail)
termination_by l => l.length
decreasing_by
  all_goals simp only [List.length_cons]
  all_goals first
    | exact Nat.lt_succ_of_lt (Nat.lt_succ_of_lt (findEnd_shrink [] rest _ _ h))
    | omega

/-- GOSTDataProcessor.replace_placeholders (lines 645-667): an empty
text yields the empty string, otherwise the text is stripped, every
token delimited by doubled braces is substituted in one pass, and runs
of whitespace in the substituted text collapse to single spaces. -/
def replace_placeholders (data : ValEntries) (text : String) :
    Except Unit String :=
  if text = "" then .ok ""
  else
    match scanSub data (pyStripList text.data) with
    | .error () => .error ()
    | .ok body => .ok ⟨collapseRuns false body⟩

/-- Scanning an empty character list substitutes nothing. -/
theorem scanSub_nil (data : ValEntries) : scanSub data [] = .ok [] := by
  simp [scanSub]

/-- Unfolding of the scanner at a token whose end is found: the token is
replaced by the lookup result and scanning continues after it. -/
theorem scanSub_tok (data : ValEntries) (rest region rest' : List Char)
    (h : findEnd [] rest = some (region, rest')) :
    scanSub data ('{' :: '{' :: rest) =
      match get_nested_value data ⟨pyStripList region⟩ with
      | .error () => .error ()
      | .ok none => scanSub data rest'
      | .ok (some v) =>
          match scanSub data rest' with
          | .error () => .error ()
          | .ok tail => .ok ((pythonStr v).data ++ tail) := by
  rw [scanSub]
  split
  · rename_i region2 rest2 heq
    rw [h] at heq
    cases heq
    cases hE : get_nested_value data ⟨pyStripList region⟩ with
    | error e => cases e; rfl
    | ok o =>
        cases o with
        | none =>
            cases hS : scanSub data rest' with
            | error e => cases e; rfl
            | ok tail => rfl
        | some v => rfl
  · rename_i heq
    rw [h] at heq
    cases heq

/-- Characters surviving str.strip come from the original list. -/
theorem pyStripList_subset (l : List Char) (c : Char) (h : c ∈ pyStripList l) :
    c ∈ l := by
  simp only [pyStripList, List.mem_reverse] at h
  have h2 := (List.dropWhile_sublist isPySpace).mem h
  simp only [List.mem_reverse] at h2
  exact (List.dropWhile_sublist isPySpace).mem h2

/-- On a character list free of opening braces the scanner is the
identity and never raises. -/
theorem scanSub_no_brace (data : ValEntries) (l : List Char)
    (h : '{' ∉ l) : scanSub data l = .ok l := by
  induction l with
  | nil => exact scanSub_nil data
  | cons c rest ih =>
      have hc : c ≠ '{' := fun hcc => h (hcc ▸ List.mem_cons_self c rest)
      have hr : '{' ∉ rest := fun hm => h (List.mem_cons_of_mem c hm)
      rw [scanSub.eq_def]
      split
      · rename_i heq
        cases heq
      · rename_i rest2 heq
        injection heq with h1 h2
        exact absurd h1 hc
      · rename_i c2 rest2 hshape heq
        injection heq with h1 h2
        subst h1
        subst h2
        rw [ih hr]

unseal scanSub findEnd in
/-- C5 counterexample: replace_placeholders is not exception-free. On
the data mapping where key a holds the plain string b, the token
spelling the dotted path a.b makes the lookup step evaluate a Python
membership test on the string b, which succeeds, and the subsequent
string indexing by a string key raises TypeError, so the call raises
instead of substituting the empty string. -/
theorem c5_raises_counterexample :
    replace_placeholders (.cons "a" (.str "b") .nil) "\x7b\x7ba.b\x7d\x7d" =
      .error () := rfl

unseal scanSub findEnd in
/-- C5 (amended): replace_placeholders substitutes each doubled-brace
token in one pass with the stringified result of the dotted-path
lookup, substitutes the empty string when the lookup misses inside
mappings, and collapses whitespace runs in the result; it can raise
only when a path step lands inside a non-mapping value or a bracketed
index does not parse. In particular resolving the token a.b against a
mapping where a holds a mapping with b bound to any string X yields X
whitespace-collapsed, resolving it against a mapping where a holds an
empty mapping yields the empty string without an exception, and any
text without opening braces passes through stripped and collapsed
without an exception. -/
theorem c5_replace_placeholders_amended :
    (∀ v : String,
      replace_placeholders (.cons "a" (.dict (.cons "b" (.str v) .nil)) .nil)
          "\x7b\x7b a.b \x7d\x7d" = .ok (collapseWS v)) ∧
    replace_placeholders (.cons "a" (.dict .nil) .nil) "\x7b\x7b a.b \x7d\x7d" =
      .ok "" ∧
    (∀ (data : ValEntries) (text : String), '{' ∉ text.data →
      replace_placeholders data text = .ok (collapseWS (pyStrip text))) := by
  refine ⟨?_, ?_, ?_⟩
  · intro v
    have hstrip : pyStripList ("\x7b\x7b a.b \x7d\x7d" : String).data =
        '{' :: '{' :: [' ', 'a', '.', 'b', ' ', '}', '}'] := by decide
    have hfe : findEnd [] [' ', 'a', '.', 'b', ' ', '}', '}'] =
        some ([' ', 'a', '.', 'b', ' '], []) := by rfl
    have hget : get_nested_value
        (.cons "a" (.dict (.cons "b" (.str v) .nil)) .nil)
        ⟨pyStripList [' ', 'a', '.', 'b', ' ']⟩ = .ok (some (.str v)) := by
      have hkey : (⟨pyStripList [' ', 'a', '.', 'b', ' ']⟩ : String) = "a.b" := by
        decide
      have hsplit : splitDots "a.b" = ["a", "b"] := by decide
      rw [hkey]
      simp [get_nested_value, hsplit, walkParts, pathStep, plainStep, lookupStr,
        unwrapValue]
    rw [replace_placeholders]
    rw [if_neg (by decide)]
    rw [hstrip, scanSub_tok _ _ _ _ hfe, hget]
    rw [scanSub_nil]
    simp [collapseWS, pythonStr]
  · rfl
  · intro data text h
    rw [replace_placeholders]
    by_cases ht : text = ""
    · rw [if_pos ht]
      subst ht
      rfl
    · rw [if_neg ht]
      have hnb : '{' ∉ pyStripList text.data :=
        fun hm => h (pyStripList_subset _ _ hm)
      rw [scanSub_no_brace data _ hnb]
      rfl

/-- C5 witness: the token-free text with a doubled space passes through
replace_placeholders collapsed to a single space. -/
theorem c5_replace_placeholders_amended_witness :
    replace_placeholders .nil "x  y" = .ok "x y" := by
  have h := c5_replace_placeholders_amended.2.2 .nil "x  y" (by decide)
  rw [show collapseWS (pyStrip "x  y") = "x y" by decide] at h
  exact h

/-- Table content block shape (_process_table): an optional name (a
missing key defaults to the word for Table), headers (entries may be
Python None), rows of cells (a cell may be None), and a trailing
text_after. -/
structure TableData where
  name : Option String
  headers : List (Option String)
  rows : List (List (Option String))
  text_after : String
deriving DecidableEq

/-- One content block of a node, classified the way _process_blocks
dispatches on the first recognized key of the block dictionary: text,
list (style plus the extracted text of each item, which the source
reads from a dictionary item through its text key or via str),
table, image (path and the caption after its name fallback),
page_break; nondict models a plain string block, processed as text by
the emitter and rejected by the validator; otherdict models a
dictionary block with none of the recognized keys, ignored everywhere.
Image width, height and scaling are rendering detail outside the
claims and are not modelled. -/
inductive Block where
  | text (s : String)
  | list (style : String) (items : List String)
  | table (t : TableData)
  | image (path : String) (caption : String)
  | page_break
  | nondict (s : String)
  | otherdict
deriving DecidableEq

/-- The children-array key present on a node: subsections, points or
subpoints; the source data model populates at most one of the three
(gost_shared.py _get_node_children, lines 690-699, checks them in this
fixed order). -/
inductive CKey where
  | subsections
  | points
  | subpoints
deriving DecidableEq

mutual
/-- One node of the section tree: id and name (a missing field is the
empty string, matching node.get with an empty default), the
children-array key present together with the children, and the blocks
list when the blocks key is present. -/
inductive Node where
  | mk (id name : String) (ck : Option CKey) (children : Forest)
      (blocks : Option (List Block))
deriving DecidableEq

/-- A sibling array of nodes, in document order. -/
inductive Forest where
  | nil
  | cons (n : Node) (rest : Forest)
deriving DecidableEq
end

/-- Identifier of a node. -/
def Node.id : Node → String
  | .mk i _ _ _ _ => i

/-- Raw name of a node. -/
def Node.name : Node → String
  | .mk _ nm _ _ _ => nm

/-- Children-array key of a node. -/
def Node.ck : Node → Option CKey
  | .mk _ _ k _ _ => k

/-- Children array of a node. -/
def Node.children : Node → Forest
  | .mk _ _ _ cs _ => cs

/-- Blocks of a node (none when the blocks key is absent). -/
def Node.blocks : Node → Option (List Block)
  | .mk _ _ _ _ bl => bl

/-- GOSTTOCGenerator._get_node_children (lines 690-699): the children
array behind whichever of the three keys is present, else empty. -/
def get_node_children (n : Node) : Forest :=
  match n.ck with
  | some _ => n.children
  | none => .nil

/-- Number of nodes of a sibling array. -/
def forestLen : Forest → Nat
  | .nil => 0
  | .cons _ rest => forestLen rest + 1

/-- Identifier of the j-th sibling (empty when out of range). -/
def forestIdAt : Forest → Nat → String
  | .nil, _ => ""
  | .cons n _, 0 => n.id
  | .cons _ rest, j + 1 => forestIdAt rest j

mutual
/-- All identifiers in a node's subtree, in preorder. -/
def nodeIds : Node → List String
  | .mk i _ _ cs _ => i :: forestIds cs

/-- All identifiers in a forest, in preorder. -/
def forestIds : Forest → List String
  | .nil => []
  | .cons n rest => nodeIds n ++ forestIds rest
end

/-- The three fixed structural placeholder identifiers skipped by both
tree walks (lines 726 and 958). -/
def isServiceId (i : String) : Bool :=
  i = "title_page" || i = "table_of_contents" || i = "appendices"

/-- Dotted rendering of a number path, as join applied with a dot
separator. -/
def joinDots (ns : List Nat) : String :=
  String.intercalate "." (ns.map toString)

/-- One table-of-contents record as built by
GOSTTOCGenerator._collect_nodes_recursive: the bookmark id, the node
id, the level, the resolved title, the page placeholder, the numbering
flag, the display number (none models the key being absent on records
of nodes kept out of the TOC), the introduction marker and the
inclusion flag. -/
structure TocEntry where
  entry_id : String
  section_id : String
  level : Nat
  title : String
  page : Nat
  numbered : Bool
  display_number : Option String
  is_intro : Bool
  in_toc : Bool
deriving DecidableEq

/-- Mutable state of GOSTTOCGenerator during collect_toc_structure:
the ordered TOC entries, the bookmark counter, the running top-level
section counter, the id-to-numbers mapping and the id-to-entry mapping
(the subsection and point counters of the class are initialized but
never read by the collection code and are not modelled). -/
structure TocState where
  toc_entries : List TocEntry
  toc_bookmark_counter : Nat
  section_counter : Nat
  node_numbers : List (String × List Nat)
  id_to_entry : List (String × TocEntry)
deriving DecidableEq

/-- Configuration of the generator: the document type (None, re, tu or
another tag) and the TOC depth limit max_levels. -/
structure TocCfg where
  doc_type : Option String
  max_levels : Nat
deriving DecidableEq

/-- Lookup in the id-to-numbers mapping (newest binding first). -/
def lookupNums (k : String) : List (String × List Nat) → Option (List Nat)
  | [] => none
  | (k2, v) :: rest => if k2 = k then some v else lookupNums k rest

/-- Lookup in the id-to-entry mapping (newest binding first). -/
def lookupEntry (k : String) : List (String × TocEntry) → Option TocEntry
  | [] => none
  | (k2, v) :: rest => if k2 = k then some v else lookupEntry k rest

/-- Per-node handling flags of _collect_nodes_recursive (lines
729-744): should_number, should_be_in_toc, is_intro; the intro id
under document type re is neither numbered nor in the TOC, under tu it
is unnumbered but in the TOC, every other node is numbered and in the
TOC. -/
def collect_flags (cfg : TocCfg) (node_id : String) : Bool × Bool × Bool :=
  if node_id = "intro" ∧ cfg.doc_type = some "re" then (false, false, true)
  else if node_id = "intro" ∧ cfg.doc_type = some "tu" then (false, true, true)
  else (true, true, false)

/-- Number computation of _collect_nodes_recursive (lines 746-766),
returning the numbers of this node and the updated running section
counter: a numbered node at level 0 takes the incremented counter, at
level 1 the parent number extended with the positional index plus one
(with a [1, i+1] fallback under an empty parent number), and at deeper
levels the parent number extended with the positional index plus one;
an unnumbered node gets the empty number list. -/
def collect_numbers (should_number is_intro : Bool) (i : Nat) (p : List Nat)
    (level : Nat) (sc : Nat) : List Nat × Nat :=
  if should_number then
    if level = 0 ∧ is_intro = false then ([sc + 1], sc + 1)
    else if level = 1 then
      (if p ≠ [] then (p ++ [i + 1], sc) else ([1, i + 1], sc))
    else (p ++ [i + 1], sc)
  else ([], sc)

/-- State bookkeeping of _collect_nodes_recursive for one processed
node (lines 746-799): the number record for numbered nodes, and either
a fresh TOC entry (when eligible and below max_levels) or a
lookup-only entry; returns this node's numbers and the new state. -/
def collect_node_state (cfg : TocCfg) (node_id node_name : String) (i : Nat)
    (p : List Nat) (level : Nat) (st : TocState) : List Nat × TocState :=
  let flags := collect_flags cfg node_id
  let numbered := collect_numbers flags.1 flags.2.2 i p level st.section_counter
  let current_numbers := numbered.1
  let st1 : TocState :=
    { st with
      section_counter := numbered.2,
      node_numbers :=
        if flags.1 then (node_id, current_numbers) :: st.node_numbers
        else st.node_numbers }
  let st2 : TocState :=
    if flags.2.1 ∧ level < cfg.max_levels then
      let display_number :=
        if current_numbers ≠ [] then joinDots current_numbers else ""
      let bc := st1.toc_bookmark_counter + 1
      let entry : TocEntry :=
        { entry_id := "toc_" ++ node_id ++ "_" ++ toString bc,
          section_id := node_id, level := level, title := node_name,
          page := 1, numbered := flags.1,
          display_number := some display_number,
          is_intro := flags.2.2, in_toc := true }
      { st1 with
        toc_bookmark_counter := bc,
        toc_entries := st1.toc_entries ++ [entry],
        id_to_entry := (node_id, entry) :: st1.id_to_entry }
    else
      let entry : TocEntry :=
        { entry_id := "toc_" ++ node_id ++ "_" ++ node_id,
          section_id := node_id, level := level, title := node_name,
          page := 1, numbered := flags.1, display_number := none,
          is_intro := flags.2.2, in_toc := false }
      { st1 with id_to_entry := (node_id, entry) :: st1.id_to_entry }
  (current_numbers, st2)

mutual
/-- Processing of one node by
GOSTTOCGenerator._collect_nodes_recursive (lines 716-804): nodes with
a missing id or a blank name are skipped with their whole subtree, as
are the three service ids; otherwise the flags, numbers and records
are computed by collect_node_state and the children are processed one
level deeper under this node's numbers. -/
def collect_node (cfg : TocCfg) (n : Node) (i : Nat) (parent_numbers : List Nat)
    (level : Nat) (st : TocState) : TocState :=
  match n with
  | .mk node_id rawname ck cs _ =>
      let node_name := pyStrip rawname
      if node_id = "" ∨ node_name = "" then st
      else if isServiceId node_id then st
      else
        let r := collect_node_state cfg node_id node_name i parent_numbers level st
        match ck with
        | some _ => collect_nodes_recursive cfg cs 0 r.1 (level + 1) r.2
        | none => r.2

/-- The sibling loop of _collect_nodes_recursive: each node is
processed with its positional index, which advances for every array
element, including skipped ones. -/
def collect_nodes_recursive (cfg : TocCfg) (f : Forest) (i : Nat)
    (parent_numbers : List Nat) (level : Nat) (st : TocState) : TocState :=
  match f with
  | .nil => st
  | .cons n rest =>
      collect_nodes_recursive cfg rest (i + 1) parent_numbers level
        (collect_node cfg n i parent_numbers level st)
end

/-- GOSTTOCGenerator.collect_toc_structure (lines 701-714): all state
is reset and the tree is collected from level 0 with no parent
number. -/
def collect_toc_structure (cfg : TocCfg) (sections : Forest) : TocState :=
  collect_nodes_recursive cfg sections 0 [] 0
    { toc_entries := [], toc_bookmark_counter := 0, section_counter := 0,
      node_numbers := [], id_to_entry := [] }

/-- GOSTTOCGenerator.get_node_number (lines 829-837): the dotted
rendering of the recorded numbers, the empty string for the intro id
under document type re, and the empty string for unknown ids. -/
def get_node_number (cfg : TocCfg) (st : TocState) (node_id : String) : String :=
  match lookupNums node_id st.node_numbers with
  | some numbers =>
      if node_id = "intro" ∧ cfg.doc_type = some "re" then ""
      else joinDots numbers
  | none => ""

/-- Sibling eligibility for plain numbering: a present id, a nonblank
name, not a service id and not the intro id. -/
def countedSib (n : Node) : Bool :=
  n.id ≠ "" && pyStrip n.name ≠ "" && !(isServiceId n.id) && n.id ≠ "intro"

/-- All siblings of an array are eligible for plain numbering. -/
def sibsCounted : Forest → Bool
  | .nil => true
  | .cons n rest => countedSib n && sibsCounted rest

/-- Ids other than intro get the plain flag triple. -/
theorem collect_flags_plain (cfg : TocCfg) (node_id : String)
    (h : node_id ≠ "intro") : collect_flags cfg node_id = (true, true, false) := by
  simp [collect_flags, h]

/-- Below the top level the running section counter is not consumed. -/
theorem collect_numbers_sc_deep (sn ii : Bool) (i : Nat) (p : List Nat)
    (level sc : Nat) (h : 1 ≤ level) :
    (collect_numbers sn ii i p level sc).2 = sc := by
  have h0 : ¬ level = 0 := by omega
  unfold collect_numbers
  split_ifs <;> first | rfl | omega

/-- At levels at least 1 with a nonempty parent number, a numbered
non-intro node gets the parent number extended by its position. -/
theorem collect_numbers_deep (i : Nat) (p : List Nat) (level sc : Nat)
    (h : 1 ≤ level) (hp : p ≠ []) :
    collect_numbers true false i p level sc = (p ++ [i + 1], sc) := by
  cases level with
  | zero => omega
  | succ m =>
      cases m with
      | zero => simp [collect_numbers, hp]
      | succ m2 => simp [collect_numbers]

/-- At the top level a numbered non-intro node takes the incremented
running section counter. -/
theorem collect_numbers_zero (i : Nat) (p : List Nat) (sc : Nat) :
    collect_numbers true false i p 0 sc = ([sc + 1], sc + 1) := by
  simp [collect_numbers]

/-- Unnumbered nodes get the empty number list and leave the counter. -/
theorem collect_numbers_unnumbered (ii : Bool) (i : Nat) (p : List Nat)
    (level sc : Nat) : collect_numbers false ii i p level sc = ([], sc) := by
  simp [collect_numbers]

/-- Projections of collect_node_state: the returned numbers are those
of collect_numbers, the number record is prepended exactly for
numbered nodes, the section counter follows collect_numbers, the
bookmark counter advances exactly for TOC entries, and the TOC entry
list gains at most one entry at the end. -/
theorem collect_node_state_proj (cfg : TocCfg) (node_id node_name : String)
    (i : Nat) (p : List Nat) (level : Nat) (st : TocState) :
    (collect_node_state cfg node_id node_name i p level st).1 =
      (collect_numbers (collect_flags cfg node_id).1
        (collect_flags cfg node_id).2.2 i p level st.section_counter).1 ∧
    (collect_node_state cfg node_id node_name i p level st).2.node_numbers =
      (if (collect_flags cfg node_id).1 then
        (node_id,
          (collect_numbers (collect_flags cfg node_id).1
            (collect_flags cfg node_id).2.2 i p level st.section_counter).1) ::
          st.node_numbers
      else st.node_numbers) ∧
    (collect_node_state cfg node_id node_name i p level st).2.section_counter =
      (collect_numbers (collect_flags cfg node_id).1
        (collect_flags cfg node_id).2.2 i p level st.section_counter).2 := by
  refine ⟨?_, ?_, ?_⟩
  · rfl
  · simp only [collect_node_state]
    split <;> rfl
  · simp only [collect_node_state]
    split <;> rfl

mutual
/-- Ids absent from a node's subtree keep their recorded numbers
through the processing of that node. -/
theorem collect_node_untouched (cfg : TocCfg) (n : Node) (i : Nat)
    (p : List Nat) (level : Nat) (st : TocState) (k : String)
    (hk : k ∉ nodeIds n) :
    lookupNums k (collect_node cfg n i p level st).node_numbers =
      lookupNums k st.node_numbers := by
  match n with
  | .mk node_id rawname ck cs bl =>
      have hid : k ≠ node_id := by
        intro hh
        exact hk (by simp [nodeIds, hh])
      have hcs : k ∉ forestIds cs := by
        intro hh
        exact hk (by simp [nodeIds, hh])
      have hstep : ∀ nm,
          lookupNums k
            (collect_node_state cfg node_id nm i p level st).2.node_numbers =
          lookupNums k st.node_numbers := by
        intro nm
        rw [(collect_node_state_proj cfg node_id nm i p level st).2.1]
        split
        · simp [lookupNums, Ne.symm hid]
        · rfl
      simp only [collect_node]
      split
      · rfl
      · split
        · rfl
        · split
          · rw [collect_forest_untouched cfg cs 0 _ (level + 1) _ k hcs]
            exact hstep _
          · exact hstep _

/-- Ids absent from a forest keep their recorded numbers through the
processing of that forest. -/
theorem collect_forest_untouched (cfg : TocCfg) (f : Forest) (i : Nat)
    (p : List Nat) (level : Nat) (st : TocState) (k : String)
    (hk : k ∉ forestIds f) :
    lookupNums k (collect_nodes_recursive cfg f i p level st).node_numbers =
      lookupNums k st.node_numbers := by
  match f with
  | .nil => rfl
  | .cons n rest =>
      have hn : k ∉ nodeIds n := by
        intro hh
        exact hk (by simp [forestIds, hh])
      have hr : k ∉ forestIds rest := by
        intro hh
        exact hk (by simp [forestIds, hh])
      unfold collect_nodes_recursive
      rw [collect_forest_untouched cfg rest (i + 1) p level _ k hr]
      exact collect_node_untouched cfg n i p level st k hn
end

mutual
/-- Below the top level, processing a node never moves the running
section counter. -/
theorem collect_node_keeps_sc (cfg : TocCfg) (n : Node) (i : Nat)
    (p : List Nat) (level : Nat) (st : TocState) (h : 1 ≤ level) :
    (collect_node cfg n i p level st).section_counter = st.section_counter := by
  match n with
  | .mk node_id rawname ck cs bl =>
      have hs : ∀ nm,
          (collect_node_state cfg node_id nm i p level st).2.section_counter =
            st.section_counter := by
        intro nm
        rw [(collect_node_state_proj cfg node_id nm i p level st).2.2]
        exact collect_numbers_sc_deep _ _ _ _ _ _ h
      simp only [collect_node]
      split
      · rfl
      · split
        · rfl
        · split
          · rw [collect_forest_keeps_sc cfg cs 0 _ (level + 1) _ (by omega)]
            exact hs _
          · exact hs _

/-- Below the top level, processing a forest never moves the running
section counter. -/
theorem collect_forest_keeps_sc (cfg : TocCfg) (f : Forest) (i : Nat)
    (p : List Nat) (level : Nat) (st : TocState) (h : 1 ≤ level) :
    (collect_nodes_recursive cfg f i p level st).section_counter =
      st.section_counter := by
  match f with
  | .nil => rfl
  | .cons n rest =>
      unfold collect_nodes_recursive
      rw [collect_forest_keeps_sc cfg rest (i + 1) p level _ h,
        collect_node_keeps_sc cfg n i p level st h]
end

/-- Splitting of eligibility into its four components. -/
theorem countedSib_parts (n : Node) (hc : countedSib n = true) :
    n.id ≠ "" ∧ pyStrip n.name ≠ "" ∧ isServiceId n.id = false ∧
      n.id ≠ "intro" := by
  simp only [countedSib, Bool.and_eq_true, bne_iff_ne, ne_eq,
    Bool.not_eq_true', decide_eq_true_eq] at hc
  tauto

/-- Number record of collect_node_state for an id other than intro:
the pair for this node is prepended. -/
theorem collect_node_state_numbers_plain (cfg : TocCfg)
    (node_id nm : String) (i : Nat) (p : List Nat) (level : Nat)
    (st : TocState) (h4 : node_id ≠ "intro") :
    (collect_node_state cfg node_id nm i p level st).2.node_numbers =
      (node_id, (collect_numbers true false i p level st.section_counter).1) ::
        st.node_numbers := by
  rw [(collect_node_state_proj cfg node_id nm i p level st).2.1,
    collect_flags_plain cfg node_id h4]
  rfl

/-- Section counter of collect_node_state for an id other than intro. -/
theorem collect_node_state_sc_plain (cfg : TocCfg)
    (node_id nm : String) (i : Nat) (p : List Nat) (level : Nat)
    (st : TocState) (h4 : node_id ≠ "intro") :
    (collect_node_state cfg node_id nm i p level st).2.section_counter =
      (collect_numbers true false i p level st.section_counter).2 := by
  rw [(collect_node_state_proj cfg node_id nm i p level st).2.2,
    collect_flags_plain cfg node_id h4]

/-- A numbered sibling below the top level records the parent number
extended with its positional index plus one, and that record survives
the processing of its own children. -/
theorem collect_node_counted_deep (cfg : TocCfg) (n : Node) (i : Nat)
    (p : List Nat) (level : Nat) (st : TocState)
    (hc : countedSib n = true) (hl : 1 ≤ level) (hp : p ≠ [])
    (hnd : (nodeIds n).Nodup) :
    lookupNums n.id (collect_node cfg n i p level st).node_numbers =
      some (p ++ [i + 1]) := by
  match n with
  | .mk node_id rawname ck cs bl =>
      obtain ⟨h1, h2, h3, h4⟩ := countedSib_parts _ hc
      simp only [Node.id, Node.name] at h1 h2 h3 h4 ⊢
      have hnotcs : node_id ∉ forestIds cs := by
        have := hnd
        simp only [nodeIds, List.nodup_cons] at this
        exact this.1
      have hgoal : ∀ nm,
          lookupNums node_id
            (collect_node_state cfg node_id nm i p level st).2.node_numbers =
            some (p ++ [i + 1]) := by
        intro nm
        rw [collect_node_state_numbers_plain cfg node_id nm i p level st h4,
          collect_numbers_deep i p level st.section_counter hl hp]
        simp [lookupNums]
      simp only [collect_node]
      rw [if_neg (by simp [h1, h2]), if_neg (by simp [h3])]
      split
      · rw [collect_forest_untouched cfg cs 0 _ (level + 1) _ node_id hnotcs]
        exact hgoal _
      · exact hgoal _

/-- Sibling numbering below the top level: when every sibling of an
array is eligible and all subtree ids are distinct, the j-th sibling
(0-based) records the parent number extended with the array position
i + j plus one. -/
theorem collect_forest_numbering_deep (cfg : TocCfg) (f : Forest) (i : Nat)
    (p : List Nat) (level : Nat) (st : TocState)
    (hl : 1 ≤ level) (hp : p ≠ []) (hs : sibsCounted f = true)
    (hnd : (forestIds f).Nodup) :
    ∀ j, j < forestLen f →
      lookupNums (forestIdAt f j)
        (collect_nodes_recursive cfg f i p level st).node_numbers =
        some (p ++ [i + j + 1]) := by
  match f with
  | .nil => intro j hj; exact absurd hj (by simp [forestLen])
  | .cons n rest =>
      have hsn : countedSib n = true := by
        simp only [sibsCounted, Bool.and_eq_true] at hs
        exact hs.1
      have hsr : sibsCounted rest = true := by
        simp only [sibsCounted, Bool.and_eq_true] at hs
        exact hs.2
      have hndn : (nodeIds n).Nodup := by
        simp only [forestIds, List.nodup_append] at hnd
        exact hnd.1
      have hndr : (forestIds rest).Nodup := by
        simp only [forestIds, List.nodup_append] at hnd
        exact hnd.2.1
      have hdisj : n.id ∉ forestIds rest := by
        simp only [forestIds, List.nodup_append] at hnd
        intro hmem
        exact hnd.2.2 (by
          match n with
          | .mk node_id rawname ck cs bl => simp [nodeIds, Node.id]) hmem
      intro j hj
      cases j with
      | zero =>
          show lookupNums n.id _ = some (p ++ [i + 0 + 1])
          unfold collect_nodes_recursive
          rw [collect_forest_untouched cfg rest (i + 1) p level _ n.id hdisj]
          rw [collect_node_counted_deep cfg n i p level st hsn hl hp hndn]
      | succ j2 =>
          show lookupNums (forestIdAt rest j2) _ = _
          unfold collect_nodes_recursive
          have hj2 : j2 < forestLen rest := by
            have hlen : forestLen (Forest.cons n rest) = forestLen rest + 1 := rfl
            omega
          rw [collect_forest_numbering_deep cfg rest (i + 1) p level _ hl hp
            hsr hndr j2 hj2]
          simp only [show i + 1 + j2 + 1 = i + (j2 + 1) + 1 from by omega]

/-- A numbered top-level section records the incremented running
section counter as its single-component number, and leaves the counter
incremented by exactly one after its whole subtree is processed. -/
theorem collect_node_counted_zero (cfg : TocCfg) (n : Node) (i : Nat)
    (p : List Nat) (st : TocState)
    (hc : countedSib n = true) (hnd : (nodeIds n).Nodup) :
    lookupNums n.id (collect_node cfg n i p 0 st).node_numbers =
      some [st.section_counter + 1] ∧
    (collect_node cfg n i p 0 st).section_counter = st.section_counter + 1 := by
  match n with
  | .mk node_id rawname ck cs bl =>
      obtain ⟨h1, h2, h3, h4⟩ := countedSib_parts _ hc
      simp only [Node.id, Node.name] at h1 h2 h3 h4 ⊢
      have hnotcs : node_id ∉ forestIds cs := by
        have := hnd
        simp only [nodeIds, List.nodup_cons] at this
        exact this.1
      have hlook : ∀ nm,
          lookupNums node_id
            (collect_node_state cfg node_id nm i p 0 st).2.node_numbers =
            some [st.section_counter + 1] := by
        intro nm
        rw [collect_node_state_numbers_plain cfg node_id nm i p 0 st h4,
          collect_numbers_zero i p st.section_counter]
        simp [lookupNums]
      have hsc : ∀ nm,
          (collect_node_state cfg node_id nm i p 0 st).2.section_counter =
            st.section_counter + 1 := by
        intro nm
        rw [collect_node_state_sc_plain cfg node_id nm i p 0 st h4,
          collect_numbers_zero i p st.section_counter]
      constructor
      · simp only [collect_node]
        rw [if_neg (by simp [h1, h2]), if_neg (by simp [h3])]
        split
        · rw [collect_forest_untouched cfg cs 0 _ 1 _ node_id hnotcs]
          exact hlook _
        · exact hlook _
      · simp only [collect_node]
        rw [if_neg (by simp [h1, h2]), if_neg (by simp [h3])]
        split
        · rw [collect_forest_keeps_sc cfg cs 0 _ 1 _ (by omega)]
          exact hsc _
        · exact hsc _

/-- Top-level numbering: when every section of the array is eligible
and all subtree ids are distinct, the j-th section (0-based) records
the single number equal to the incoming running counter plus j plus
one; the array position plays no role at the top level. -/
theorem collect_forest_numbering_zero (cfg : TocCfg) (f : Forest) (i : Nat)
    (p : List Nat) (st : TocState)
    (hs : sibsCounted f = true) (hnd : (forestIds f).Nodup) :
    ∀ j, j < forestLen f →
      lookupNums (forestIdAt f j)
        (collect_nodes_recursive cfg f i p 0 st).node_numbers =
        some [st.section_counter + j + 1] := by
  match f with
  | .nil => intro j hj; exact absurd hj (by simp [forestLen])
  | .cons n rest =>
      have hsn : countedSib n = true := by
        simp only [sibsCounted, Bool.and_eq_true] at hs
        exact hs.1
      have hsr : sibsCounted rest = true := by
        simp only [sibsCounted, Bool.and_eq_true] at hs
        exact hs.2
      have hndn : (nodeIds n).Nodup := by
        simp only [forestIds, List.nodup_append] at hnd
        exact hnd.1
      have hndr : (forestIds rest).Nodup := by
        simp only [forestIds, List.nodup_append] at hnd
        exact hnd.2.1
      have hdisj : n.id ∉ forestIds rest := by
        simp only [forestIds, List.nodup_append] at hnd
        intro hmem
        exact hnd.2.2 (by
          match n with
          | .mk node_id rawname ck cs bl => simp [nodeIds, Node.id]) hmem
      intro j hj
      cases j with
      | zero =>
          show lookupNums n.id _ = some [st.section_counter + 0 + 1]
          unfold collect_nodes_recursive
          rw [collect_forest_untouched cfg rest (i + 1) p 0 _ n.id hdisj]
          rw [(collect_node_counted_zero cfg n i p st hsn hndn).1]
      | succ j2 =>
          show lookupNums (forestIdAt rest j2) _ = _
          unfold collect_nodes_recursive
          have hj2 : j2 < forestLen rest := by
            have hlen : forestLen (Forest.cons n rest) = forestLen rest + 1 := rfl
            omega
          rw [collect_forest_numbering_zero cfg rest (i + 1) p _ hsr hndr j2 hj2]
          rw [(collect_node_counted_zero cfg n i p st hsn hndn).2]
          simp only [show st.section_counter + 1 + j2 + 1 =
            st.section_counter + (j2 + 1) + 1 from by omega]

/-- Mutable state of GOSTValidator: accumulated error and warning
messages and the set of ids already seen (modelled as a list whose
membership test is the set membership of the source). -/
structure VState where
  errors : List String
  warnings : List String
  seen_ids : List String
deriving DecidableEq

/-- GOSTValidator._fmt_path (lines 1708-1710): the path joined with
arrows, ending in the node id or a question mark. -/
def fmt_path (path : List String) (node_id : String) : String :=
  String.intercalate " → " (path ++ [if node_id = "" then "?" else node_id])

/-- The single-child warning text of GOSTValidator._walk (lines
1669-1673), built from the raw node name. -/
def single_child_warning (name : String) : String :=
  "\x27" ++ name ++ "\x27 состоит из одного пункта (допустимо по ГОСТ 6.5.7)"

/-- Block checks of GOSTValidator._walk (lines 1684-1706): a non-dict
block is an error, a blank text block and an empty list block are
warnings, all other blocks pass (a list key holding a non-dictionary
is not representable in the block model and is noted as such). -/
def walk_block (node_id : String) (st : VState) : Block → VState
  | .nondict _ =>
      { st with errors := st.errors ++ ["Некорректный блок в узле " ++ node_id] }
  | .text s =>
      if pyStrip s = "" then
        { st with warnings :=
            st.warnings ++ ["Пустой текстовый блок в узле " ++ node_id] }
      else st
  | .list _ items =>
      if items = [] then
        { st with warnings :=
            st.warnings ++ ["Пустой список в узле " ++ node_id] }
      else st
  | _ => st

/-- Iteration of the block checks over a blocks field; a missing or
empty blocks list is not checked at all. -/
def walk_blocks (node_id : String) (bl : Option (List Block)) (st : VState) :
    VState :=
  match bl with
  | some (b :: bs) => (b :: bs).foldl (walk_block node_id) st
  | _ => st

/-- Per-node checks of GOSTValidator._walk before the recursion (lines
1645-1673): the duplicate-id check against the seen set, the
missing-title error (the intro id is exempt), and the single-child
warning for a node with exactly one child at level at least 2 (the
walk starts at level 1 for the roots). -/
def validator_node_pre (node_id name : String) (childLen : Nat)
    (path : List String) (level : Nat) (st : VState) : VState :=
  let st1 :=
    if node_id ≠ "" then
      if node_id ∈ st.seen_ids then
        { st with
          errors := st.errors ++ ["Дублирующий id: " ++ node_id],
          seen_ids := st.seen_ids ++ [node_id] }
      else { st with seen_ids := st.seen_ids ++ [node_id] }
    else st
  let st2 :=
    if node_id ≠ "intro" ∧ pyStrip name = "" then
      { st1 with errors :=
          st1.errors ++
            ["Отсутствует заголовок у узла " ++ fmt_path path node_id] }
    else st1
  if childLen ≠ 0 ∧ 2 ≤ level ∧ childLen = 1 then
    { st2 with warnings := st2.warnings ++ [single_child_warning name] }
  else st2

/-- The path component contributed by a node to its children: the name
when truthy, else the id, else a question mark (line 1679). -/
def child_path_name (name node_id : String) : String :=
  if name ≠ "" then name else if node_id ≠ "" then node_id else "?"

mutual
/-- GOSTValidator._walk (lines 1643-1706): the per-node checks of
validator_node_pre, then the recursion into the children with the
extended path, and finally the block checks. -/
def validator_walk (node : Node) (path : List String) (level : Nat)
    (st : VState) : VState :=
  match node with
  | .mk node_id name ck cs blocks =>
      let childLen : Nat :=
        match ck with
        | some _ => forestLen cs
        | none => 0
      let st3 := validator_node_pre node_id name childLen path level st
      let st4 :=
        match ck with
        | some _ =>
            validator_walk_forest cs (path ++ [child_path_name name node_id])
              (level + 1) st3
        | none => st3
      walk_blocks node_id blocks st4

/-- The sibling loop of the validator walk. -/
def validator_walk_forest (f : Forest) (path : List String) (level : Nat)
    (st : VState) : VState :=
  match f with
  | .nil => st
  | .cons n rest =>
      validator_walk_forest rest path level (validator_walk n path level st)
end

/-- GOSTValidator.validate (lines 1619-1641): cleared state, the
missing-sections error for an empty tree, otherwise a walk of every
root at level 1. -/
def validate_state (sections : Forest) : VState :=
  match sections with
  | .nil =>
      { errors := ["Документ не содержит разделов"], warnings := [],
        seen_ids := [] }
  | f => validator_walk_forest f [] 1 { errors := [], warnings := [], seen_ids := [] }

/-- The boolean returned by validate: no errors were accumulated (the
warnings never enter this decision). -/
def validate_ok (sections : Forest) : Bool :=
  (validate_state sections).errors.isEmpty

/-- C2 (amended): under collect_toc_structure the sibling numbers are
positional rather than restricted to numbered siblings: when every
sibling of an array is eligible for numbering (present id, nonblank
name, not a service id, not the intro id) and ids are unique, the
j-th top-level section records the single number j + 1 from the
running counter, and at depth at least 1 the j-th sibling under a
parent with nonempty number p records p extended with the array
position plus one, which for the children arrays of the source (always
scanned from position 0) is exactly parent number plus [N] for the
N-th sibling, monotone and gap-free from 1; when a sibling is skipped
(for instance for a missing id) the positional index still advances,
so the claim restricted to numbered siblings only holds when no
sibling of the array is skipped. -/
theorem c2_numbering_amended :
    (∀ (cfg : TocCfg) (sections : Forest),
      sibsCounted sections = true → (forestIds sections).Nodup →
      ∀ j, j < forestLen sections →
        lookupNums (forestIdAt sections j)
          (collect_toc_structure cfg sections).node_numbers = some [j + 1]) ∧
    (∀ (cfg : TocCfg) (f : Forest) (i : Nat) (p : List Nat) (level : Nat)
        (st : TocState), 1 ≤ level → p ≠ [] → sibsCounted f = true →
      (forestIds f).Nodup →
      ∀ j, j < forestLen f →
        lookupNums (forestIdAt f j)
          (collect_nodes_recursive cfg f i p level st).node_numbers =
          some (p ++ [i + j + 1])) := by
  constructor
  · intro cfg sections hs hnd j hj
    have h := collect_forest_numbering_zero cfg sections 0 []
      { toc_entries := [], toc_bookmark_counter := 0, section_counter := 0,
        node_numbers := [], id_to_entry := [] } hs hnd j hj
    simpa [collect_toc_structure] using h
  · intro cfg f i p level st hl hp hs hnd j hj
    exact collect_forest_numbering_deep cfg f i p level st hl hp hs hnd j hj

/-- C2 witness tree: two plain sections, the second holding one
subsection. -/
def c2WitnessTree : Forest :=
  .cons (.mk "s1" "Intro" (some .subsections) .nil none)
    (.cons (.mk "s2" "Body" (some .subsections)
      (.cons (.mk "s2a" "Sub" none .nil none) .nil) none) .nil)

/-- C2 witness: on the two-section tree the second top-level section
records the number 2, and its first subsection records 2.1. -/
theorem c2_numbering_amended_witness :
    lookupNums (forestIdAt c2WitnessTree 1)
      (collect_toc_structure ⟨none, 2⟩ c2WitnessTree).node_numbers =
      some [2] ∧
    lookupNums
      (forestIdAt (Forest.cons (.mk "s2a" "Sub" none .nil none) .nil) 0)
      (collect_nodes_recursive ⟨none, 2⟩
        (Forest.cons (.mk "s2a" "Sub" none .nil none) .nil) 0 [2] 1
        (collect_toc_structure ⟨none, 2⟩ c2WitnessTree)).node_numbers =
      some [2, 1] := by
  constructor
  · exact c2_numbering_amended.1 ⟨none, 2⟩ c2WitnessTree (by decide) (by decide)
      1 (by decide)
  · exact c2_numbering_amended.2 ⟨none, 2⟩
      (Forest.cons (.mk "s2a" "Sub" none .nil none) .nil) 0 [2] 1
      (collect_toc_structure ⟨none, 2⟩ c2WitnessTree) (by decide) (by decide)
      (by decide) (by decide) 0 (by decide)

/-- C2 counterexample tree: one section whose children array holds a
node without an id (which the validator accepts, since only titles and
duplicate ids are checked) followed by an ordinary subsection. -/
def c2CexTree : Forest :=
  .cons (.mk "s" "S" (some .subsections)
    (.cons (.mk "" "X" none .nil none)
      (.cons (.mk "b" "B" none .nil none) .nil)) none) .nil

/-- C2 counterexample: the tree validates, yet its only numbered
subsection, the first (and only) numbered sibling under section 1,
records the number 1.2 rather than 1.1: the skipped id-less sibling
still occupies the positional slot 1, so the numbering of the numbered
siblings is not gap-free from 1. -/
theorem c2_positional_gap_counterexample :
    validate_ok c2CexTree = true ∧
    get_node_number ⟨none, 2⟩ (collect_toc_structure ⟨none, 2⟩ c2CexTree) "b" =
      "1.2" ∧
    get_node_number ⟨none, 2⟩ (collect_toc_structure ⟨none, 2⟩ c2CexTree) "b" ≠
      "1.1" := by
  refine ⟨by decide, by decide, by decide⟩

/-- C3 counterexample tree: a root node with no title and no id whose
children array holds a normal node. -/
def c3CexTree : Forest :=
  .cons (.mk "" "" (some .subsections)
    (.cons (.mk "c" "C" none .nil none) .nil) none) .nil

/-- C3 counterexample: the numbering pass does not walk the children of
a node with no title and no id; after collect_toc_structure on the
tree whose only root is such a node, no number at all is recorded (in
particular none for its child with id c) and no TOC entry exists, so
the descendant numbering the claim promises is absent. -/
theorem c3_skip_counterexample :
    (collect_toc_structure ⟨none, 2⟩ c3CexTree).node_numbers = [] ∧
    get_node_number ⟨none, 2⟩ (collect_toc_structure ⟨none, 2⟩ c3CexTree) "c" =
      "" ∧
    (collect_toc_structure ⟨none, 2⟩ c3CexTree).toc_entries = [] := by
  refine ⟨by decide, by decide, by decide⟩

/-- C3 (amended): a node with a missing id or a blank title is skipped
by the numbering pass together with its entire subtree: processing it
leaves the collector state untouched (no number record, no TOC entry,
no bookmark, no counter movement, neither for it nor for any
descendant), and the only trace it leaves is that the positional index
of the sibling scan still advances past it. -/
theorem c3_unnamed_skipped_amended (cfg : TocCfg) (n : Node) (rest : Forest)
    (i : Nat) (p : List Nat) (level : Nat) (st : TocState)
    (h : n.id = "" ∨ pyStrip n.name = "") :
    collect_node cfg n i p level st = st ∧
    collect_nodes_recursive cfg (.cons n rest) i p level st =
      collect_nodes_recursive cfg rest (i + 1) p level st := by
  have hskip : collect_node cfg n i p level st = st := by
    match n with
    | .mk node_id rawname ck cs bl =>
        simp only [Node.id, Node.name] at h
        simp only [collect_node]
        rw [if_pos h]
  refine ⟨hskip, ?_⟩
  conv_lhs => rw [collect_nodes_recursive]
  rw [hskip]

/-- C3 witness: on the concrete id-less node the two equations of the
amended claim hold with the initial collector state. -/
theorem c3_unnamed_skipped_amended_witness :
    collect_node ⟨none, 2⟩ (.mk "" "" (some .subsections)
        (.cons (.mk "c" "C" none .nil none) .nil) none) 0 [] 0
      { toc_entries := [], toc_bookmark_counter := 0, section_counter := 0,
        node_numbers := [], id_to_entry := [] } =
      { toc_entries := [], toc_bookmark_counter := 0, section_counter := 0,
        node_numbers := [], id_to_entry := [] } :=
  (c3_unnamed_skipped_amended ⟨none, 2⟩
    (.mk "" "" (some .subsections)
      (.cons (.mk "c" "C" none .nil none) .nil) none) .nil 0 [] 0
    { toc_entries := [], toc_bookmark_counter := 0, section_counter := 0,
      node_numbers := [], id_to_entry := [] } (by decide)).1

/-- The numbering-relevant projection of the collector state: the
running section counter, the bookmark counter, the number records and
the TOC entries; the id-to-entry mapping (used only later to attach
bookmarks) is outside the view and is never read during collection. -/
def numbersView (st : TocState) :
    Nat × Nat × List (String × List Nat) × List TocEntry :=
  (st.section_counter, st.toc_bookmark_counter, st.node_numbers,
    st.toc_entries)

/-- A numbered node is never the introduction. -/
theorem collect_flags_sn_imp (cfg : TocCfg) (node_id : String)
    (h : (collect_flags cfg node_id).1 = true) :
    (collect_flags cfg node_id).2.2 = false := by
  unfold collect_flags at h ⊢
  split_ifs at h ⊢ <;> simp_all

/-- The TOC flag of the introduction under document type re is off. -/
theorem collect_flags_intro_re (cfg : TocCfg) (hre : cfg.doc_type = some "re") :
    collect_flags cfg "intro" = (false, false, true) := by
  simp [collect_flags, hre]

/-- States agreeing on the view produce agreeing node-state results. -/
theorem collect_node_state_view_congr (cfg : TocCfg) (node_id nm : String)
    (i : Nat) (p : List Nat) (level : Nat) (st1 st2 : TocState)
    (h : numbersView st1 = numbersView st2) :
    (collect_node_state cfg node_id nm i p level st1).1 =
      (collect_node_state cfg node_id nm i p level st2).1 ∧
    numbersView (collect_node_state cfg node_id nm i p level st1).2 =
      numbersView (collect_node_state cfg node_id nm i p level st2).2 := by
  simp only [numbersView, Prod.mk.injEq] at h
  obtain ⟨h1, h2, h3, h4⟩ := h
  constructor
  · simp only [collect_node_state, h1]
  · simp only [collect_node_state, numbersView, h1, h2, h3, h4]
    split <;> simp

/-- At the top level the node-state result does not depend on the
positional index or the parent number. -/
theorem collect_node_state_level0_index (cfg : TocCfg) (node_id nm : String)
    (i i2 : Nat) (p p2 : List Nat) (st : TocState) :
    collect_node_state cfg node_id nm i p 0 st =
      collect_node_state cfg node_id nm i2 p2 0 st := by
  cases hsn : (collect_flags cfg node_id).1 with
  | true =>
      have hii := collect_flags_sn_imp cfg node_id hsn
      simp only [collect_node_state, hsn, hii, collect_numbers_zero]
  | false =>
      simp only [collect_node_state, hsn, collect_numbers_unnumbered]

mutual
/-- View congruence of node processing: states agreeing on the view
keep agreeing. -/
theorem collect_node_view_congr (cfg : TocCfg) (n : Node) (i : Nat)
    (p : List Nat) (level : Nat) (st1 st2 : TocState)
    (h : numbersView st1 = numbersView st2) :
    numbersView (collect_node cfg n i p level st1) =
      numbersView (collect_node cfg n i p level st2) := by
  match n with
  | .mk node_id rawname ck cs bl =>
      simp only [collect_node]
      split
      · exact h
      · split
        · exact h
        · have hc := collect_node_state_view_congr cfg node_id
            (pyStrip rawname) i p level st1 st2 h
          split
          · rw [hc.1]
            exact collect_forest_view_congr cfg cs 0 _ (level + 1) _ _ hc.2
          · exact hc.2

/-- View congruence of forest processing. -/
theorem collect_forest_view_congr (cfg : TocCfg) (f : Forest) (i : Nat)
    (p : List Nat) (level : Nat) (st1 st2 : TocState)
    (h : numbersView st1 = numbersView st2) :
    numbersView (collect_nodes_recursive cfg f i p level st1) =
      numbersView (collect_nodes_recursive cfg f i p level st2) := by
  match f with
  | .nil => exact h
  | .cons n rest =>
      unfold collect_nodes_recursive
      exact collect_forest_view_congr cfg rest (i + 1) p level _ _
        (collect_node_view_congr cfg n i p level st1 st2 h)
end

mutual
/-- At the top level the view of node processing does not depend on the
positional index or the parent number. -/
theorem collect_node_level0_index (cfg : TocCfg) (n : Node) (i i2 : Nat)
    (p p2 : List Nat) (st : TocState) :
    numbersView (collect_node cfg n i p 0 st) =
      numbersView (collect_node cfg n i2 p2 0 st) := by
  match n with
  | .mk node_id rawname ck cs bl =>
      simp only [collect_node]
      split
      · rfl
      · split
        · rfl
        · have he := collect_node_state_level0_index cfg node_id
            (pyStrip rawname) i i2 p p2 st
          split
          · rw [he]
          · rw [he]

/-- At the top level the view of forest processing does not depend on
the positional index or the parent number. -/
theorem collect_forest_level0_index (cfg : TocCfg) (f : Forest) (i i2 : Nat)
    (p p2 : List Nat) (st : TocState) :
    numbersView (collect_nodes_recursive cfg f i p 0 st) =
      numbersView (collect_nodes_recursive cfg f i2 p2 0 st) := by
  match f with
  | .nil => rfl
  | .cons n rest =>
      unfold collect_nodes_recursive
      have h1 := collect_node_level0_index cfg n i i2 p p2 st
      have h2 := collect_forest_view_congr cfg rest (i + 1) p 0 _ _ h1
      rw [h2]
      exact collect_forest_level0_index cfg rest (i + 1) (i2 + 1) p p2 _
end

/-- Under document type re, processing an introduction node without
children leaves the whole numbering view unchanged: no number record,
no TOC entry, no bookmark, no counter movement; only the id-to-entry
mapping (outside the view) gains its lookup record. -/
theorem collect_node_intro_re_view (cfg : TocCfg) (n : Node) (i : Nat)
    (p : List Nat) (level : Nat) (st : TocState)
    (hre : cfg.doc_type = some "re") (hid : n.id = "intro")
    (hch : get_node_children n = .nil) :
    numbersView (collect_node cfg n i p level st) = numbersView st := by
  match n with
  | .mk node_id rawname ck cs bl =>
      simp only [Node.id] at hid
      subst hid
      have hflags := collect_flags_intro_re cfg hre
      have hstep : numbersView
          (collect_node_state cfg "intro" (pyStrip rawname) i p level st).2 =
          numbersView st := by
        simp only [collect_node_state, hflags, collect_numbers_unnumbered]
        rfl
      simp only [collect_node]
      split
      · rfl
      · split
        · rfl
        · cases ck with
          | some ckv =>
              have hcs : cs = .nil := by
                simpa [get_node_children, Node.ck, Node.children] using hch
              subst hcs
              simpa [collect_nodes_recursive] using hstep
          | none => exact hstep

mutual
/-- Under document type re no node ever contributes a TOC entry whose
section id is intro: new entries carry the id of a processed node, and
a processed intro node has its TOC flag off. -/
theorem collect_node_no_intro_entry (cfg : TocCfg) (n : Node) (i : Nat)
    (p : List Nat) (level : Nat) (st : TocState)
    (hre : cfg.doc_type = some "re")
    (hst : ∀ e ∈ st.toc_entries, e.section_id ≠ "intro") :
    ∀ e ∈ (collect_node cfg n i p level st).toc_entries,
      e.section_id ≠ "intro" := by
  match n with
  | .mk node_id rawname ck cs bl =>
      have hstep : ∀ e ∈
          (collect_node_state cfg node_id (pyStrip rawname) i p level
            st).2.toc_entries, e.section_id ≠ "intro" := by
        intro e he
        by_cases hid : node_id = "intro"
        · subst hid
          rw [show (collect_node_state cfg "intro" (pyStrip rawname) i p level
              st).2.toc_entries = st.toc_entries by
            simp only [collect_node_state, collect_flags_intro_re cfg hre]
            rfl] at he
          exact hst e he
        · simp only [collect_node_state] at he
          split at he
          · simp only [List.mem_append, List.mem_singleton] at he
            cases he with
            | inl hee => exact hst e hee
            | inr hee => subst hee; simpa using hid
          · exact hst e he
      simp only [collect_node]
      split
      · exact hst
      · split
        · exact hst
        · split
          · exact collect_forest_no_intro_entry cfg cs 0 _ (level + 1) _
              hre hstep
          · exact hstep

/-- Forest version of the absence of intro TOC entries under re. -/
theorem collect_forest_no_intro_entry (cfg : TocCfg) (f : Forest) (i : Nat)
    (p : List Nat) (level : Nat) (st : TocState)
    (hre : cfg.doc_type = some "re")
    (hst : ∀ e ∈ st.toc_entries, e.section_id ≠ "intro") :
    ∀ e ∈ (collect_nodes_recursive cfg f i p level st).toc_entries,
      e.section_id ≠ "intro" := by
  match f with
  | .nil => exact hst
  | .cons n rest =>
      unfold collect_nodes_recursive
      exact collect_forest_no_intro_entry cfg rest (i + 1) p level _ hre
        (collect_node_no_intro_entry cfg n i p level st hre hst)
end

/-- C7: under a document type configuration re where the introduction
is neither numbered nor in the TOC, the number lookup for the intro id
always renders as the empty string, no TOC entry with section id intro
is ever collected, and an introduction node without children is
transparent to the numbering view: the collection of any sibling array
containing it has the same running section counter, bookmark counter,
number records and TOC entries as the collection of the array with the
introduction removed, so the surrounding sections receive identical
numbers. -/
theorem c7_intro_re (cfg : TocCfg) (hre : cfg.doc_type = some "re") :
    (∀ st : TocState, get_node_number cfg st "intro" = "") ∧
    (∀ sections : Forest,
      ∀ e ∈ (collect_toc_structure cfg sections).toc_entries,
        e.section_id ≠ "intro") ∧
    (∀ (n : Node) (rest : Forest) (i : Nat) (p : List Nat) (st : TocState),
      n.id = "intro" → get_node_children n = .nil →
      numbersView (collect_nodes_recursive cfg (.cons n rest) i p 0 st) =
        numbersView (collect_nodes_recursive cfg rest i p 0 st)) ∧
    (∀ (n : Node) (i : Nat) (p : List Nat) (st : TocState), n.id = "intro" →
      (collect_node cfg n i p 0 st).section_counter = st.section_counter) := by
  refine ⟨?_, ?_, ?_, ?_⟩
  · intro st
    unfold get_node_number
    cases h : lookupNums "intro" st.node_numbers with
    | none => rfl
    | some numbers => simp [hre]
  · intro sections e he
    rw [collect_toc_structure] at he
    exact collect_forest_no_intro_entry cfg sections 0 [] 0 _ hre
      (by simp) e he
  · intro n rest i p st hid hch
    conv_lhs => rw [collect_nodes_recursive]
    have h1 := collect_node_intro_re_view cfg n i p 0 st hre hid hch
    have h2 := collect_forest_view_congr cfg rest (i + 1) p 0 _ _ h1
    rw [h2]
    exact collect_forest_level0_index cfg rest (i + 1) i p p st
  · intro n i p st hid
    match n with
    | .mk node_id rawname ck cs bl =>
        simp only [Node.id] at hid
        subst hid
        have hsc : (collect_node_state cfg "intro" (pyStrip rawname) i p 0
            st).2.section_counter = st.section_counter := by
          simp only [collect_node_state, collect_flags_intro_re cfg hre,
            collect_numbers_unnumbered]
          split <;> rfl
        simp only [collect_node]
        split
        · rfl
        · split
          · rfl
          · split
            · rw [collect_forest_keeps_sc cfg cs 0 _ 1 _ (by omega)]
              exact hsc
            · exact hsc

/-- C7 witness: on a concrete tree with the introduction followed by an
ordinary section, under document type re the intro renders no number
and the numbering view with the intro present equals the view with the
intro removed. -/
theorem c7_intro_re_witness :
    get_node_number ⟨some "re", 2⟩
      (collect_toc_structure ⟨some "re", 2⟩
        (.cons (.mk "intro" "Введение" none .nil none)
          (.cons (.mk "a" "A" none .nil none) .nil))) "intro" = "" ∧
    numbersView (collect_nodes_recursive ⟨some "re", 2⟩
        (.cons (.mk "intro" "Введение" none .nil none)
          (.cons (.mk "a" "A" none .nil none) .nil)) 0 [] 0
        { toc_entries := [], toc_bookmark_counter := 0, section_counter := 0,
          node_numbers := [], id_to_entry := [] }) =
      numbersView (collect_nodes_recursive ⟨some "re", 2⟩
        (.cons (.mk "a" "A" none .nil none) .nil) 0 [] 0
        { toc_entries := [], toc_bookmark_counter := 0, section_counter := 0,
          node_numbers := [], id_to_entry := [] }) :=
  ⟨(c7_intro_re ⟨some "re", 2⟩ rfl).1 _,
    (c7_intro_re ⟨some "re", 2⟩ rfl).2.2.1
      (.mk "intro" "Введение" none .nil none)
      (.cons (.mk "a" "A" none .nil none) .nil) 0 []
      { toc_entries := [], toc_bookmark_counter := 0, section_counter := 0,
        node_numbers := [], id_to_entry := [] } (by decide) (by decide)⟩

/-- GOSTSectionProcessor._determine_node_type (lines 1063-1082): the
node type read off the first present key among subsections, points,
subpoints and blocks; a node with none of them is a clause. -/
def determine_node_type (n : Node) : String :=
  match n.ck with
  | some .subsections => "section"
  | some .points => "subsection"
  | some .subpoints => "point"
  | none => if n.blocks.isSome then "subpoint" else "clause"

/-- Level computation of _process_node_recursive (lines 983-1009): at
the root (parent_level -1, modelled as none) the type maps through the
level table section 0, subsection 1, point 2, subpoint 3, clause 4;
under a parent the level is the parent level plus one, with the
special cases for a subsection under level 0 and a point under levels
1 and 0 spelling out the same value. -/
def emit_level (n : Node) (parent_level : Option Nat) : Nat :=
  let t := determine_node_type n
  match parent_level with
  | none =>
      if t = "section" then 0
      else if t = "subsection" then 1
      else if t = "point" then 2
      else if t = "subpoint" then 3
      else 4
  | some pl =>
      if t = "subsection" ∧ pl = 0 then 1
      else if t = "point" ∧ pl = 1 then 2
      else if t = "point" ∧ pl = 0 then 1
      else pl + 1

/-- GOSTFormatter.get_level_style (lines 194-214): the paragraph style
for a nesting level. -/
def get_level_style (level : Nat) : String :=
  if level = 0 then "Heading_20_1"
  else if level = 1 then "Heading_20_2"
  else if level = 2 then "Clause"
  else if level = 3 then "Subclause"
  else "Normal"

mutual
/-- Visit stream of the TOC collector (projection of the traversal of
_collect_nodes_recursive, lines 716-804): the id and recursion level
of every node the collector processes, in order; nodes skipped by the
collector (missing id, blank name, service ids) contribute nothing,
and their subtrees are not entered. -/
def collectVisitsNode (n : Node) (level : Nat) : List (String × Nat) :=
  match n with
  | .mk node_id rawname ck cs _ =>
      if node_id = "" ∨ pyStrip rawname = "" then []
      else if isServiceId node_id then []
      else
        (node_id, level) ::
          (match ck with
          | some _ => collectVisitsForest cs (level + 1)
          | none => [])

/-- Forest version of the collector visit stream. -/
def collectVisitsForest (f : Forest) (level : Nat) : List (String × Nat) :=
  match f with
  | .nil => []
  | .cons n rest => collectVisitsNode n level ++ collectVisitsForest rest level
end

mutual
/-- Visit stream of the emitter (projection of the traversal of
_process_node_recursive, lines 951-1061): the id and computed level of
every node the emitter processes, in order; only the three service ids
are skipped, and children are entered with this node's level as the
parent level. -/
def emitVisitsNode (n : Node) (parent_level : Option Nat) :
    List (String × Nat) :=
  match n with
  | .mk node_id _ ck cs _ =>
      if isServiceId node_id then []
      else
        let level := emit_level n parent_level
        (node_id, level) ::
          (match ck with
          | some _ => emitVisitsForest cs level
          | none => [])

/-- Forest version of the emitter visit stream under a fixed parent
level. -/
def emitVisitsForest (f : Forest) (pl : Nat) : List (String × Nat) :=
  match f with
  | .nil => []
  | .cons n rest => emitVisitsNode n (some pl) ++ emitVisitsForest rest pl
end

/-- Visit stream of process_document_structure (lines 907-916): a
top-level intro node is handled by _process_intro_section at level 0
and its children arrays are not entered; every other root enters
_process_node_recursive with parent level -1. -/
def emitVisitsTop (sections : Forest) : List (String × Nat) :=
  match sections with
  | .nil => []
  | .cons n rest =>
      (if n.id = "intro" then [("intro", 0)] else emitVisitsNode n none) ++
        emitVisitsTop rest

/-- Under a parent, every branch of the emitter level rule yields the
parent level plus one. -/
theorem emit_level_child (n : Node) (pl : Nat) :
    emit_level n (some pl) = pl + 1 := by
  simp only [emit_level]
  split_ifs with h1 h2 h3
  · obtain ⟨-, h⟩ := h1
    omega
  · obtain ⟨-, h⟩ := h2
    omega
  · obtain ⟨-, h⟩ := h3
    omega
  · rfl

mutual
/-- Subtree eligibility for the aligned traversal: every node carries a
present id and nonblank name and is neither a service node nor the
introduction. -/
def c1Good : Node → Bool
  | .mk node_id name ck cs bl =>
      countedSib (.mk node_id name ck cs bl) && c1GoodForest cs

/-- Forest version of subtree eligibility. -/
def c1GoodForest : Forest → Bool
  | .nil => true
  | .cons n rest => c1Good n && c1GoodForest rest
end

/-- Every root node carries the subsections key, so the emitter
classifies it as a section of level 0. -/
def rootsAreSections : Forest → Bool
  | .nil => true
  | .cons n rest => (n.ck = some CKey.subsections) && rootsAreSections rest

mutual
/-- Under the eligibility hypotheses, a node's emitter visit stream
with parent level pl equals its collector visit stream at recursion
level pl + 1. -/
theorem c1_node_eq (n : Node) (pl : Nat) (hg : c1Good n = true) :
    emitVisitsNode n (some pl) = collectVisitsNode n (pl + 1) := by
  match n with
  | .mk node_id rawname ck cs bl =>
      have hcg : countedSib (.mk node_id rawname ck cs bl) = true ∧
          c1GoodForest cs = true := by
        simpa [c1Good, Bool.and_eq_true] using hg
      obtain ⟨h1, h2, h3, h4⟩ := countedSib_parts _ hcg.1
      simp only [Node.id, Node.name] at h1 h2 h3 h4
      unfold emitVisitsNode collectVisitsNode
      rw [if_neg (by simp [h3]), if_neg (by simp [h1, h2]),
        if_neg (by simp [h3])]
      rw [emit_level_child (.mk node_id rawname ck cs bl) pl]
      cases ck with
      | some ckv =>
          simp only [c1_forest_eq cs (pl + 1) hcg.2]
      | none => rfl

/-- Forest version of the stream alignment under a fixed parent
level. -/
theorem c1_forest_eq (f : Forest) (pl : Nat) (hg : c1GoodForest f = true) :
    emitVisitsForest f pl = collectVisitsForest f (pl + 1) := by
  match f with
  | .nil => rfl
  | .cons n rest =>
      have hsplit : c1Good n = true ∧ c1GoodForest rest = true := by
        simpa [c1GoodForest, Bool.and_eq_true] using hg
      unfold emitVisitsForest collectVisitsForest
      rw [c1_node_eq n pl hsplit.1, c1_forest_eq rest pl hsplit.2]
end

/-- C1 counterexample tree: a single root with a present id and name
holding only a blocks key. -/
def c1CexTree : Forest :=
  .cons (.mk "a" "A" none .nil (some [])) .nil

/-- C1 counterexample: the TOC collector assigns the root node depth 0
(its recursion depth), while the emitter classifies the same node from
its keys as a subpoint and computes level 3, so the two walks disagree
on the depth and hence on the heading style the emitter looks up. -/
theorem c1_level_mismatch_counterexample :
    collectVisitsForest c1CexTree 0 = [("a", 0)] ∧
    emitVisitsTop c1CexTree = [("a", 3)] ∧
    emitVisitsTop c1CexTree ≠ collectVisitsForest c1CexTree 0 ∧
    get_level_style 3 ≠ get_level_style 0 := by
  refine ⟨by decide, by decide, by decide, by decide⟩

/-- C1 (amended): the emitter and the TOC collector traverse the tree
in the same order with the same per-node depths whenever every node
has a present id and nonblank name and is neither a service node nor
the introduction, and every root node carries the subsections key (so
the emitter classifies it as a section of level 0); without that root
restriction a root holding only blocks is emitted at level 3 while the
collector records depth 0, and a node skipped by the collector (blank
name or missing id) is still emitted, so order and depth agreement
fail in general. -/
theorem c1_traversals_agree_amended (sections : Forest)
    (hg : c1GoodForest sections = true)
    (hr : rootsAreSections sections = true) :
    emitVisitsTop sections = collectVisitsForest sections 0 := by
  match sections with
  | .nil => rfl
  | .cons n rest =>
      have ih := fun hg2 hr2 => c1_traversals_agree_amended rest hg2 hr2
      have hsplit : c1Good n = true ∧ c1GoodForest rest = true := by
        simpa [c1GoodForest, Bool.and_eq_true] using hg
      have hrsplit : n.ck = some CKey.subsections ∧
          rootsAreSections rest = true := by
        simpa [rootsAreSections, Bool.and_eq_true, decide_eq_true_eq] using hr
      match n, hsplit, hrsplit with
      | .mk node_id rawname ck cs bl, hsplit, hrsplit =>
          have hcg : countedSib (.mk node_id rawname ck cs bl) = true ∧
              c1GoodForest cs = true := by
            simpa [c1Good, Bool.and_eq_true] using hsplit.1
          obtain ⟨h1, h2, h3, h4⟩ := countedSib_parts _ hcg.1
          simp only [Node.id, Node.name] at h1 h2 h3 h4
          have hck : ck = some CKey.subsections := by
            simpa [Node.ck] using hrsplit.1
          subst hck
          unfold emitVisitsTop emitVisitsNode collectVisitsForest
            collectVisitsNode
          rw [if_neg (by simp [Node.id, h4]), if_neg (by simp [h3]),
            if_neg (by simp [h1, h2]), if_neg (by simp [h3])]
          have hlev : emit_level
              (.mk node_id rawname (some CKey.subsections) cs bl) none = 0 := by
            simp [emit_level, determine_node_type, Node.ck]
          rw [hlev]
          simp only [c1_forest_eq cs 0 hcg.2]
          rw [ih hsplit.2 hrsplit.2]

/-- C1 witness tree: two section roots, the second with one
subsection child. -/
def c1WitnessTree : Forest :=
  .cons (.mk "w1" "One" (some .subsections) .nil none)
    (.cons (.mk "w2" "Two" (some .subsections)
      (.cons (.mk "w2a" "Sub" none .nil none) .nil) none) .nil)

/-- C1 witness: on the concrete two-section tree the emitter and
collector visit streams coincide. -/
theorem c1_traversals_agree_amended_witness :
    emitVisitsTop c1WitnessTree = collectVisitsForest c1WitnessTree 0 :=
  c1_traversals_agree_amended c1WitnessTree (by decide) (by decide)

/-- GOSTFormatter.SUBCLAUSE_LETTERS (lines 98-100): the GOST letter
sequence for subclauses. -/
def SUBCLAUSE_LETTERS : List String :=
  ["а", "б", "в", "г", "д", "е", "ж", "з", "и", "к",
   "л", "м", "н", "о", "п", "р", "с", "т", "у", "ф",
   "х", "ц", "ч", "ш", "щ", "э", "ю", "я"]

/-- GOSTFormatter.get_subclause_letter (lines 113-118): the letter at
the index, or the bracketed one-based index beyond the sequence. -/
def get_subclause_letter (index : Nat) : String :=
  match SUBCLAUSE_LETTERS.get? index with
  | some l => l
  | none => "[" ++ toString (index + 1) ++ "]"

/-- Terminal-punctuation test of format_list_item: the last character
is a semicolon, a full stop or a colon. -/
def endsPunct (s : String) : Bool :=
  match s.data.getLast? with
  | some c => c = ';' || c = '.' || c = ':'
  | none => false

/-- The roman numerals of format_list_item (line 170). -/
def ROMAN_NUMERALS : List String :=
  ["I", "II", "III", "IV", "V", "VI", "VII", "VIII", "IX", "X"]

/-- GOSTFormatter.format_list_item (lines 139-192): the item text is
stripped; the no_bullet style appends a full stop only to a nonempty
text not already ending in terminal punctuation; the alpha, numeric,
roman, bullet and default styles prefix their marker and append a full
stop to the last item and a semicolon otherwise, unless the text
already ends in terminal punctuation (an empty text also receives the
delimiter). -/
def format_list_item (raw_text : String) (index : Nat) (style : String)
    (is_last : Bool) : String :=
  let item_text := pyStrip raw_text
  let delim := if is_last then "." else ";"
  if style = "no_bullet" then
    if item_text ≠ "" ∧ endsPunct item_text = false then item_text ++ "."
    else item_text
  else if style = "alpha" then
    let letter := get_subclause_letter index
    if item_text = "" ∨ endsPunct item_text = false then
      letter ++ ") " ++ item_text ++ delim
    else letter ++ ") " ++ item_text
  else if style = "numeric" then
    let number := toString (index + 1)
    if item_text = "" ∨ endsPunct item_text = false then
      number ++ ") " ++ item_text ++ delim
    else number ++ ") " ++ item_text
  else if style = "roman" then
    let numeral :=
      match ROMAN_NUMERALS.get? index with
      | some r => r
      | none => "[" ++ toString (index + 1) ++ "]"
    if item_text = "" ∨ endsPunct item_text = false then
      numeral ++ ") " ++ item_text ++ delim
    else numeral ++ ") " ++ item_text
  else
    if item_text = "" ∨ endsPunct item_text = false then
      "– " ++ item_text ++ delim
    else "– " ++ item_text

/-- C8: for the alpha list style, an item whose stripped text does not
already end in terminal punctuation is prefixed with the GOST letter
for its index and terminated with a semicolon, or with a full stop
when it is the last item. -/
theorem c8_alpha_format (txt : String) (idx : Nat) (is_last : Bool)
    (h : endsPunct (pyStrip txt) = false) :
    format_list_item txt idx "alpha" is_last =
      get_subclause_letter idx ++ ") " ++ pyStrip txt ++
        (if is_last then "." else ";") := by
  simp [format_list_item, h]

/-- C8 witness: the three-item scenario first, second, third formats as
а) first; б) second; в) third. -/
theorem c8_alpha_format_witness :
    format_list_item "first" 0 "alpha" false = "а) first;" ∧
    format_list_item "second" 1 "alpha" false = "б) second;" ∧
    format_list_item "third" 2 "alpha" true = "в) third." := by
  refine ⟨?_, ?_, ?_⟩
  · rw [c8_alpha_format "first" 0 false (by decide)]
    decide
  · rw [c8_alpha_format "second" 1 false (by decide)]
    decide
  · rw [c8_alpha_format "third" 2 true (by decide)]
    decide

/-- A single block check only appends to the warning list. -/
theorem walk_block_warn_mono (node_id : String) (st : VState) (b : Block) :
    ∃ t, (walk_block node_id st b).warnings = st.warnings ++ t := by
  cases b with
  | text s =>
      simp only [walk_block]
      split
      · exact ⟨_, rfl⟩
      · exact ⟨[], by simp⟩
  | list style items =>
      simp only [walk_block]
      split
      · exact ⟨_, rfl⟩
      · exact ⟨[], by simp⟩
  | nondict s => exact ⟨[], by simp [walk_block]⟩
  | table t => exact ⟨[], by simp [walk_block]⟩
  | image p c => exact ⟨[], by simp [walk_block]⟩
  | page_break => exact ⟨[], by simp [walk_block]⟩
  | otherdict => exact ⟨[], by simp [walk_block]⟩

/-- A fold of block checks only appends to the warning list. -/
theorem foldl_walk_block_warn_mono (node_id : String) (bs : List Block) :
    ∀ st : VState, ∃ t,
      (bs.foldl (walk_block node_id) st).warnings = st.warnings ++ t := by
  induction bs with
  | nil => intro st; exact ⟨[], by simp⟩
  | cons b rest ih =>
      intro st
      obtain ⟨t1, h1⟩ := walk_block_warn_mono node_id st b
      obtain ⟨t2, h2⟩ := ih (walk_block node_id st b)
      refine ⟨t1 ++ t2, ?_⟩
      simp only [List.foldl_cons, h2, h1, List.append_assoc]

/-- The whole blocks check only appends to the warning list. -/
theorem walk_blocks_warn_mono (node_id : String) (bl : Option (List Block))
    (st : VState) : ∃ t,
      (walk_blocks node_id bl st).warnings = st.warnings ++ t := by
  match bl with
  | some (b :: bs) => exact foldl_walk_block_warn_mono node_id (b :: bs) st
  | some [] => exact ⟨[], by simp [walk_blocks]⟩
  | none => exact ⟨[], by simp [walk_blocks]⟩

/-- The pre-checks append the single-child warning exactly when the
node has one child at level at least 2, and nothing else to the
warning list. -/
theorem validator_node_pre_warnings (node_id name : String) (childLen : Nat)
    (path : List String) (level : Nat) (st : VState) :
    (validator_node_pre node_id name childLen path level st).warnings =
      st.warnings ++
        (if childLen ≠ 0 ∧ 2 ≤ level ∧ childLen = 1 then
          [single_child_warning name] else []) := by
  simp only [validator_node_pre]
  split <;> split <;> split <;> simp <;> split <;> simp

mutual
/-- The node walk only appends to the warning list. -/
theorem validator_walk_warn_mono (n : Node) (path : List String) (level : Nat)
    (st : VState) : ∃ t,
      (validator_walk n path level st).warnings = st.warnings ++ t := by
  match n with
  | .mk node_id name ck cs blocks =>
      simp only [validator_walk]
      cases ck with
      | some ckv =>
          obtain ⟨t2, h2⟩ := validator_walk_forest_warn_mono cs
            (path ++ [child_path_name name node_id]) (level + 1)
            (validator_node_pre node_id name (forestLen cs) path level st)
          obtain ⟨t3, h3⟩ := walk_blocks_warn_mono node_id blocks
            (validator_walk_forest cs (path ++ [child_path_name name node_id])
              (level + 1)
              (validator_node_pre node_id name (forestLen cs) path level st))
          refine ⟨(if forestLen cs ≠ 0 ∧ 2 ≤ level ∧ forestLen cs = 1 then
            [single_child_warning name] else []) ++ t2 ++ t3, ?_⟩
          rw [h3, h2, validator_node_pre_warnings]
          simp [List.append_assoc]
      | none =>
          obtain ⟨t3, h3⟩ := walk_blocks_warn_mono node_id blocks
            (validator_node_pre node_id name 0 path level st)
          refine ⟨t3, ?_⟩
          rw [h3, validator_node_pre_warnings]
          simp

/-- The forest walk only appends to the warning list. -/
theorem validator_walk_forest_warn_mono (f : Forest) (path : List String)
    (level : Nat) (st : VState) : ∃ t,
      (validator_walk_forest f path level st).warnings = st.warnings ++ t := by
  match f with
  | .nil => exact ⟨[], by simp [validator_walk_forest]⟩
  | .cons n rest =>
      obtain ⟨t1, h1⟩ := validator_walk_warn_mono n path level st
      obtain ⟨t2, h2⟩ := validator_walk_forest_warn_mono rest path level
        (validator_walk n path level st)
      refine ⟨t1 ++ t2, ?_⟩
      simp only [validator_walk_forest]
      rw [h2, h1, List.append_assoc]
end

/-- With a nonblank name and an unseen id the pre-checks add no error
and only record the id as seen. -/
theorem validator_node_pre_clean (node_id name : String) (childLen : Nat)
    (path : List String) (level : Nat) (st : VState)
    (hnm : pyStrip name ≠ "") (hseen : node_id ∉ st.seen_ids) :
    (validator_node_pre node_id name childLen path level st).errors =
      st.errors ∧
    (validator_node_pre node_id name childLen path level st).seen_ids =
      st.seen_ids ++ (if node_id ≠ "" then [node_id] else []) := by
  simp only [validator_node_pre]
  split
  · rw [if_neg (by simp [hnm])]
    by_cases hid : node_id = ""
    · simp [hid]
    · simp [hid, hseen]
  · rw [if_neg (by simp [hnm])]
    by_cases hid : node_id = ""
    · simp [hid]
    · simp [hid, hseen]

/-- Walking a leaf node with a nonblank name and an unseen id changes
neither the error nor the warning list. -/
theorem validator_walk_leaf_clean (id2 nm2 : String) (path2 : List String)
    (level2 : Nat) (st : VState) (hnm : pyStrip nm2 ≠ "")
    (hseen : id2 ∉ st.seen_ids) :
    (validator_walk (.mk id2 nm2 none .nil none) path2 level2 st).errors =
      st.errors ∧
    (validator_walk (.mk id2 nm2 none .nil none) path2 level2 st).warnings =
      st.warnings := by
  have hpre := validator_node_pre_clean id2 nm2 0 path2 level2 st hnm hseen
  have hw := validator_node_pre_warnings id2 nm2 0 path2 level2 st
  simp only [validator_walk, walk_blocks]
  refine ⟨hpre.1, ?_⟩
  rw [hw]
  simp

/-- C9: a node with exactly one child in its children array at walk
level at least 2 (the walk starts at level 1 for the roots, so this is
depth 2 counted from 1 as the source does) makes _walk append the
single-child warning to the warning list; the boolean returned by
validate is the emptiness of the error list alone, so warnings never
flip it; and on an otherwise well-formed parent-with-one-child pair
the walk adds exactly that one warning and no error at all. -/
theorem c9_single_child_warning :
    (∀ (n : Node) (path : List String) (level : Nat) (st : VState),
      2 ≤ level → forestLen (get_node_children n) = 1 →
      ∃ tail, (validator_walk n path level st).warnings =
        st.warnings ++ single_child_warning n.name :: tail) ∧
    (∀ sections : Forest, validate_ok sections =
      (validate_state sections).errors.isEmpty) ∧
    (∀ (id1 nm1 id2 nm2 : String) (k : CKey) (path : List String)
        (level : Nat) (st : VState), 2 ≤ level →
      pyStrip nm1 ≠ "" → pyStrip nm2 ≠ "" → id1 ∉ st.seen_ids →
      id2 ∉ st.seen_ids → id2 ≠ id1 →
      (validator_walk (.mk id1 nm1 (some k)
          (.cons (.mk id2 nm2 none .nil none) .nil) none) path level
          st).errors = st.errors ∧
      (validator_walk (.mk id1 nm1 (some k)
          (.cons (.mk id2 nm2 none .nil none) .nil) none) path level
          st).warnings = st.warnings ++ [single_child_warning nm1]) := by
  refine ⟨?_, fun _ => rfl, ?_⟩
  · intro n path level st hl hch
    match n with
    | .mk node_id name ck cs blocks =>
        cases ck with
        | none =>
            exact absurd hch (by simp [get_node_children, Node.ck, forestLen])
        | some ckv =>
            have hcs : forestLen cs = 1 := by
              simpa [get_node_children, Node.ck, Node.children] using hch
            simp only [validator_walk, Node.name]
            obtain ⟨t2, h2⟩ := validator_walk_forest_warn_mono cs
              (path ++ [child_path_name name node_id]) (level + 1)
              (validator_node_pre node_id name (forestLen cs) path level st)
            obtain ⟨t3, h3⟩ := walk_blocks_warn_mono node_id blocks
              (validator_walk_forest cs
                (path ++ [child_path_name name node_id]) (level + 1)
                (validator_node_pre node_id name (forestLen cs) path level st))
            refine ⟨t2 ++ t3, ?_⟩
            rw [h3, h2, validator_node_pre_warnings,
              if_pos (by simp [hcs]; omega)]
            simp
  · intro id1 nm1 id2 nm2 k path level st hl hnm1 hnm2 hs1 hs2 hne
    have hpre := validator_node_pre_clean id1 nm1 1 path level st hnm1 hs1
    have hw := validator_node_pre_warnings id1 nm1 1 path level st
    have hs2b : id2 ∉
        (validator_node_pre id1 nm1 1 path level st).seen_ids := by
      rw [hpre.2]
      intro hmem
      rcases List.mem_append.mp hmem with hmem2 | hmem2
      · exact hs2 hmem2
      · revert hmem2
        split
        · intro hmem2
          simp only [List.mem_singleton] at hmem2
          exact hne hmem2
        · intro hmem2
          simp at hmem2
    have hleaf := validator_walk_leaf_clean id2 nm2
      (path ++ [child_path_name nm1 id1]) (level + 1)
      (validator_node_pre id1 nm1 1 path level st) hnm2 hs2b
    have hunfold : validator_walk (.mk id1 nm1 (some k)
        (.cons (.mk id2 nm2 none .nil none) .nil) none) path level st =
        validator_walk (.mk id2 nm2 none .nil none)
          (path ++ [child_path_name nm1 id1]) (level + 1)
          (validator_node_pre id1 nm1 1 path level st) := rfl
    rw [hunfold]
    constructor
    · rw [hleaf.1]
      exact hpre.1
    · rw [hleaf.2, hw]
      rw [if_pos (by refine ⟨by omega, hl, rfl⟩)]

/-- C9 witness: on the concrete parent with a single child at level 2
the walk from the empty state produces exactly the single-child
warning and no error. -/
theorem c9_single_child_warning_witness :
    (validator_walk (.mk "p" "P" (some .points)
        (.cons (.mk "q" "Q" none .nil none) .nil) none) [] 2
        { errors := [], warnings := [], seen_ids := [] }).errors = [] ∧
    (validator_walk (.mk "p" "P" (some .points)
        (.cons (.mk "q" "Q" none .nil none) .nil) none) [] 2
        { errors := [], warnings := [], seen_ids := [] }).warnings =
      [single_child_warning "P"] := by
  have h := c9_single_child_warning.2.2 "p" "P" "q" "Q" CKey.points [] 2
    { errors := [], warnings := [], seen_ids := [] } (by omega) (by decide)
    (by decide) (by simp) (by simp) (by decide)
  exact ⟨h.1, by simpa using h.2⟩

/-- One abstract output instruction of the emitter, at the granularity
of the XML fragments the source appends: styled paragraphs (with or
without a bookmark), table pieces, images and page breaks. The empty
spacer paragraphs around tables and images, the image size attributes
and the md5-derived archive names are rendering detail outside the
claims and are not modelled. -/
inductive Instr where
  | para (style : String) (text : String)
  | bookmark_para (style : String) (bookmark : String) (text : String)
  | table_title (text : String)
  | table_start (number : Nat)
  | table_column
  | table_header_row (cells : List String)
  | table_row (cells : List String)
  | table_end
  | image_frame (number : Nat) (caption : String) (path : String)
  | image_missing (number : Nat) (caption : String)
  | page_break
deriving DecidableEq

/-- Mutable state of GOSTSectionProcessor during emission: the emitted
instructions and the three document counters
(reset_document_counters, lines 899-905; the images bookkeeping list
feeding the ZIP packager is outside the claims). -/
structure EmitState where
  xml : List Instr
  table_counter : Nat
  image_counter : Nat
  document_bookmark_counter : Nat
deriving DecidableEq

/-- The freshly reset emission state used at the start of every build
(create_content_structure lines 1521-1530 and reset_document_counters
lines 899-905). -/
def reset_document_counters : EmitState :=
  { xml := [], table_counter := 0, image_counter := 0,
    document_bookmark_counter := 0 }

/-- GOSTSectionProcessor._process_image (lines 1349-1489): the image
counter is incremented first, the caption becomes the word for Figure
with the new counter value, extended with the resolved caption text
when one is present; an image with a path emits a frame with that
caption, one without emits the caption and a missing-image notice. -/
def process_image (data : ValEntries) (path caption : String)
    (st : EmitState) : Except Unit EmitState :=
  let c := st.image_counter + 1
  let cap : Except Unit String :=
    if caption ≠ "" then
      match replace_placeholders data caption with
      | .error () => .error ()
      | .ok r => .ok ("Рисунок " ++ toString c ++ " – " ++ r)
    else .ok ("Рисунок " ++ toString c)
  match cap with
  | .error () => .error ()
  | .ok image_caption =>
      .ok { st with
        image_counter := c,
        xml := st.xml ++
          (if path ≠ "" then [.image_frame c image_caption path]
           else [.image_missing c image_caption]) }

/-- Rendering of one table cell (lines 1328-1334): a None cell is a
single space, otherwise the resolved and stripped text, with a single
space replacing an empty result. -/
def render_cell (data : ValEntries) (cell : Option String) :
    Except Unit String :=
  match cell with
  | none => .ok " "
  | some s =>
      match replace_placeholders data s with
      | .error () => .error ()
      | .ok r => .ok (if pyStrip r = "" then " " else pyStrip r)

/-- Rendering of a list of cells in order. -/
def render_cells (data : ValEntries) : List (Option String) →
    Except Unit (List String)
  | [] => .ok []
  | c :: rest =>
      match render_cell data c with
      | .error () => .error ()
      | .ok t =>
          match render_cells data rest with
          | .error () => .error ()
          | .ok ts => .ok (t :: ts)

/-- Header cells (lines 1311-1320): None headers are skipped, the rest
are resolved without stripping. -/
def render_headers (data : ValEntries) : List (Option String) →
    Except Unit (List String)
  | [] => .ok []
  | none :: rest => render_headers data rest
  | some h :: rest =>
      match replace_placeholders data h with
      | .error () => .error ()
      | .ok t =>
          match render_headers data rest with
          | .error () => .error ()
          | .ok ts => .ok (t :: ts)

/-- The data-row loop of _process_table (lines 1322-1338): every row
whose cell count differs from the column count is skipped silently,
the remaining rows are emitted in order. -/
def table_rows_xml (data : ValEntries) (col_count : Nat) :
    List (List (Option String)) → Except Unit (List Instr)
  | [] => .ok []
  | cells :: rest =>
      if cells.length ≠ col_count then table_rows_xml data col_count rest
      else
        match render_cells data cells with
        | .error () => .error ()
        | .ok ts =>
            match table_rows_xml data col_count rest with
            | .error () => .error ()
            | .ok is => .ok (Instr.table_row ts :: is)

/-- Widest cell list among the rows, used when there are no headers
(lines 1298-1301). -/
def max_row_len : List (List (Option String)) → Nat
  | [] => 0
  | cells :: rest => max (max_row_len rest) cells.length

/-- Title emission of _process_table (lines 1288-1306): a nonempty
name (defaulting to the word for Table when the key is absent) emits a
resolved title carrying the incremented table counter. -/
def table_title_instrs (data : ValEntries) (table_name : String) (tc : Nat) :
    Except Unit (List Instr) :=
  if table_name ≠ "" then
    match replace_placeholders data table_name with
    | .error () => .error ()
    | .ok r => .ok [.table_title ("Таблица " ++ toString tc ++ " – " ++ r)]
  else .ok []

/-- Header-row emission of _process_table (lines 1308-1320). -/
def table_header_instrs (data : ValEntries) (headers : List (Option String)) :
    Except Unit (List Instr) :=
  if headers ≠ [] then
    match render_headers data headers with
    | .error () => .error ()
    | .ok hs => .ok [.table_header_row hs]
  else .ok []

/-- Text-after emission of _process_table (lines 1342-1347). -/
def table_after_instrs (data : ValEntries) (text_after : String) :
    Except Unit (List Instr) :=
  if text_after ≠ "" then
    match replace_placeholders data text_after with
    | .error () => .error ()
    | .ok r => if pyStrip r ≠ "" then .ok [.para "Normal" r] else .ok []
  else .ok []

/-- GOSTSectionProcessor._process_table (lines 1284-1347): the table
counter is incremented, the title emitted, the column count is the
header count or the widest row without headers, a zero column count
stops after the title, otherwise the table opens, emits its columns,
the header row (None headers skipped), the well-sized data rows in
order, closes, and emits the resolved text_after when nonblank. -/
def process_table (data : ValEntries) (item : TableData) (st : EmitState) :
    Except Unit EmitState :=
  let tc := st.table_counter + 1
  let table_name := match item.name with | some s => s | none => "Таблица"
  match table_title_instrs data table_name tc with
  | .error () => .error ()
  | .ok title_instrs =>
      let col_count :=
        if item.headers.length ≠ 0 then item.headers.length
        else max_row_len item.rows
      if col_count = 0 then
        .ok { st with table_counter := tc, xml := st.xml ++ title_instrs }
      else
        match table_header_instrs data item.headers with
        | .error () => .error ()
        | .ok header_instrs =>
            match table_rows_xml data col_count item.rows with
            | .error () => .error ()
            | .ok row_instrs =>
                match table_after_instrs data item.text_after with
                | .error () => .error ()
                | .ok after_instrs =>
                    .ok { st with
                      table_counter := tc,
                      xml := st.xml ++ title_instrs ++ [.table_start tc] ++
                        List.replicate col_count .table_column ++
                        header_instrs ++ row_instrs ++ [.table_end] ++
                        after_instrs }

/-- Replacement of every occurrence of a needle (Python str.replace
and, for the fixed counter tokens, re.sub with a literal pattern):
character scan replacing each match and continuing after it. -/
def replaceSubAux (needle repl : List Char) : List Char → List Char
  | [] => []
  | c :: rest =>
      if needle ≠ [] ∧ isPrefixList needle (c :: rest) then
        repl ++ replaceSubAux needle repl (rest.drop (needle.length - 1))
      else c :: replaceSubAux needle repl rest
termination_by l => l.length
decreasing_by
  · simp only [List.length_cons, List.length_drop]
    omega
  · simp

/-- String form of occurrence replacement. -/
def replace_all (s needle repl : String) : String :=
  ⟨replaceSubAux needle.data repl.data s.data⟩

/-- Python substring membership on Strings. -/
def contains_sub (s needle : String) : Bool :=
  isInfixList needle.data s.data

/-- The forward-looking figure token. -/
def IMG_TOKEN : String := "\x7b\x7bimage_counter_next\x7d\x7d"

/-- The forward-looking table token. -/
def TBL_TOKEN : String := "\x7b\x7btable_counter_next\x7d\x7d"

/-- Whether a block is an image block. -/
def isImageBlock : Block → Bool
  | .image _ _ => true
  | _ => false

/-- Precomputation of _process_blocks (lines 1111-1120): the positions
of the image blocks of the list, paired with the numbers they will
receive (their one-based rank among the images of the list plus the
image counter at entry). -/
def image_positions : List Block → Nat → Nat → List (Nat × Nat)
  | [], _, _ => []
  | b :: rest, i, numNext =>
      if isImageBlock b then (i, numNext) :: image_positions rest (i + 1) (numNext + 1)
      else image_positions rest (i + 1) numNext

/-- Forward scan of the precomputed positions (lines 1146-1154): the
number of the first image block after position i, or the fallback when
none follows in this list. -/
def next_image_num (positions : List (Nat × Nat)) (i fallback : Nat) : Nat :=
  match positions.find? (fun p => i < p.1) with
  | some p => p.2
  | none => fallback

/-- Text-block processing of _process_blocks (lines 1134-1161): the
table token is replaced with the incremented table counter, then the
figure token with the number of the next image block of this list
(falling back to the incremented global image counter), then the
placeholders resolve, and a nonblank result emits a paragraph styled
Normal at parent level at least 3 and Clause otherwise. -/
def process_text_block (data : ValEntries) (positions : List (Nat × Nat))
    (i : Nat) (parent_level : Nat) (text_content : String)
    (st : EmitState) : Except Unit EmitState :=
  let t1 :=
    if contains_sub text_content TBL_TOKEN then
      replace_all text_content TBL_TOKEN (toString (st.table_counter + 1))
    else text_content
  let t2 :=
    if contains_sub t1 IMG_TOKEN then
      replace_all t1 IMG_TOKEN
        (toString (next_image_num positions i (st.image_counter + 1)))
    else t1
  match replace_placeholders data t2 with
  | .error () => .error ()
  | .ok processed =>
      if pyStrip processed ≠ "" then
        let style := if 3 ≤ parent_level then "Normal" else "Clause"
        .ok { st with xml := st.xml ++ [.para style processed] }
      else .ok st

/-- List-item processing of _process_blocks (lines 1170-1201): inside
items the figure token is replaced first, then the table token, then
the placeholders resolve; a nonblank result is formatted per the list
style (the last item closing with a full stop) and emitted with style
Subclause at parent level at least 2 and Normal otherwise. -/
def process_list_items (data : ValEntries) (positions : List (Nat × Nat))
    (i : Nat) (parent_level : Nat) (style : String) (total : Nat) :
    List String → Nat → EmitState → Except Unit EmitState
  | [], _, st => .ok st
  | item :: rest, item_idx, st =>
      let t1 :=
        if contains_sub item IMG_TOKEN then
          replace_all item IMG_TOKEN
            (toString (next_image_num positions i (st.image_counter + 1)))
        else item
      let t2 :=
        if contains_sub t1 TBL_TOKEN then
          replace_all t1 TBL_TOKEN (toString (st.table_counter + 1))
        else t1
      match replace_placeholders data t2 with
      | .error () => .error ()
      | .ok processed =>
          if pyStrip processed ≠ "" then
            let is_last := item_idx = total - 1
            let formatted := format_list_item processed item_idx style is_last
            let list_style := if 2 ≤ parent_level then "Subclause" else "Normal"
            process_list_items data positions i parent_level style total rest
              (item_idx + 1)
              { st with xml := st.xml ++ [.para list_style formatted] }
          else
            process_list_items data positions i parent_level style total rest
              (item_idx + 1) st

/-- Block loop of _process_blocks (lines 1122-1217) over the enumerated
blocks, with the image positions precomputed at entry. -/
def process_blocks_go (data : ValEntries) (positions : List (Nat × Nat))
    (parent_level : Nat) : List Block → Nat → EmitState →
    Except Unit EmitState
  | [], _, st => .ok st
  | b :: rest, i, st =>
      let step : Except Unit EmitState :=
        match b with
        | .nondict s =>
            match replace_placeholders data s with
            | .error () => .error ()
            | .ok processed =>
                if pyStrip processed ≠ "" then
                  let style := if 3 ≤ parent_level then "Normal" else "Clause"
                  .ok { st with xml := st.xml ++ [.para style processed] }
                else .ok st
        | .text s => process_text_block data positions i parent_level s st
        | .list style items =>
            process_list_items data positions i parent_level style
              items.length items 0 st
        | .table t => process_table data t st
        | .image path caption => process_image data path caption st
        | .page_break => .ok { st with xml := st.xml ++ [.page_break] }
        | .otherdict => .ok st
      match step with
      | .error () => .error ()
      | .ok st2 => process_blocks_go data positions parent_level rest (i + 1) st2

/-- GOSTSectionProcessor._process_blocks (lines 1109-1217). -/
def process_blocks (data : ValEntries) (blocks : List Block)
    (parent_level : Nat) (st : EmitState) : Except Unit EmitState :=
  process_blocks_go data (image_positions blocks 0 (st.image_counter + 1))
    parent_level blocks 0 st

/-- Whether a blocks list contains an image block (lines 973-978). -/
def has_image_block : List Block → Bool
  | [] => false
  | b :: rest => isImageBlock b || has_image_block rest

/-- Appending a batch of output instructions to the emitter state
(the xml_parts.append calls of the source). -/
def push_instrs (st : EmitState) (l : List Instr) : EmitState :=
  { st with xml := st.xml ++ l }

/-- Heading emission of _process_node_recursive (lines 1016-1056) and
_process_intro_section (lines 925-941): a nonblank processed name
emits one paragraph in the style of the level, titled with the number
prefix unless the number is empty or the node is the intro of
document type re, and carrying the bookmark of the TOC entry of this
id when the TOC generator holds one; a blank name emits nothing. -/
def node_header (doc_type : Option String) (toc : Option (TocCfg × TocState))
    (node_id node_name node_number : String) (level : Nat) : List Instr :=
  if node_name ≠ "" then
    let full_title :=
      if node_id = "intro" ∧ doc_type = some "re" then node_name
      else if node_number ≠ "" then node_number ++ " " ++ node_name
      else node_name
    let style := get_level_style level
    let bid :=
      match toc with
      | some (_, tst) =>
          (lookupEntry node_id tst.id_to_entry).map TocEntry.entry_id
      | none => none
    match bid with
    | some b => [.bookmark_para style b full_title]
    | none => [.para style full_title]
  else []

/-- Title processing of _process_node_recursive (lines 954-981): the
name is stripped; a nonblank name first passes through the general
placeholder resolution of line 969 (which replaces every doubled-brace
token, the forward-looking figure token included, by its data lookup,
the empty string on a miss), and only then the special branch of lines
971-981 substitutes the incremented image counter for the figure
token, when the node has an image block and the token still occurs. -/
def process_node_title (data : ValEntries) (n : Node) (image_counter : Nat) :
    Except Unit String :=
  let nm := pyStrip n.name
  if nm = "" then .ok ""
  else
    match replace_placeholders data nm with
    | .error () => .error ()
    | .ok node_name =>
        if contains_sub node_name IMG_TOKEN then
          let first_image_num : Option Nat :=
            match n.blocks with
            | some bl =>
                if has_image_block bl then some (image_counter + 1) else none
            | none => none
          match first_image_num with
          | some k => .ok (replace_all node_name IMG_TOKEN (toString k))
          | none => .ok node_name
        else .ok node_name

mutual
/-- GOSTSectionProcessor._process_node_recursive (lines 951-1061):
service ids are skipped; the title resolves through
process_node_title; the level comes from emit_level; the number is
looked up in the TOC generator when one is attached; a nonblank title
emits a heading (with the bookmark of the TOC entry when one exists,
and without a number prefix for the intro under document type re);
then the blocks are processed at this level and the children one
parent level deeper. -/
def process_node_recursive (data : ValEntries) (doc_type : Option String)
    (toc : Option (TocCfg × TocState)) (n : Node)
    (parent_level : Option Nat) (st : EmitState) : Except Unit EmitState :=
  match n with
  | .mk node_id rawname ck cs blocks =>
      if isServiceId node_id then .ok st
      else
        match process_node_title data (.mk node_id rawname ck cs blocks)
            st.image_counter with
        | .error () => .error ()
        | .ok node_name =>
            let level :=
              emit_level (.mk node_id rawname ck cs blocks) parent_level
            let node_number :=
              match toc with
              | some (cfg, tst) =>
                  if node_id ≠ "" then get_node_number cfg tst node_id else ""
              | none => ""
            let st1 :=
              push_instrs st
                (node_header doc_type toc node_id node_name node_number level)
            let afterBlocks : Except Unit EmitState :=
              match blocks with
              | some bl => process_blocks data bl level st1
              | none => .ok st1
            match afterBlocks with
            | .error () => .error ()
            | .ok st2 =>
                match ck with
                | some _ =>
                    process_forest_recursive data doc_type toc cs level st2
                | none => .ok st2

/-- The children loop of _process_node_recursive (lines 1059-1061). -/
def process_forest_recursive (data : ValEntries) (doc_type : Option String)
    (toc : Option (TocCfg × TocState)) (f : Forest) (parent_level : Nat)
    (st : EmitState) : Except Unit EmitState :=
  match f with
  | .nil => .ok st
  | .cons n rest =>
      match process_node_recursive data doc_type toc n (some parent_level) st with
      | .error () => .error ()
      | .ok st2 => process_forest_recursive data doc_type toc rest parent_level st2
end

/-- GOSTSectionProcessor._process_intro_section (lines 918-949): the
raw stripped name (no placeholder resolution) becomes a level-0
heading, with the bookmark of the TOC entry when one exists, the
blocks are processed at level 0 and a page break closes the section. -/
def process_intro_section (data : ValEntries)
    (toc : Option (TocCfg × TocState)) (n : Node) (st : EmitState) :
    Except Unit EmitState :=
  match n with
  | .mk node_id rawname _ _ blocks =>
      let node_name := pyStrip rawname
      let st1 :=
        push_instrs st (node_header none toc node_id node_name "" 0)
      let afterBlocks : Except Unit EmitState :=
        match blocks with
        | some bl => process_blocks data bl 0 st1
        | none => .ok st1
      match afterBlocks with
      | .error () => .error ()
      | .ok st2 => .ok (push_instrs st2 [.page_break])

/-- GOSTSectionProcessor.process_document_structure (lines 907-916):
each root with the intro id goes through _process_intro_section, every
other root through _process_node_recursive at parent level -1. -/
def process_document_structure (data : ValEntries) (doc_type : Option String)
    (toc : Option (TocCfg × TocState)) (f : Forest) (st : EmitState) :
    Except Unit EmitState :=
  match f with
  | .nil => .ok st
  | .cons n rest =>
      let step :=
        if n.id = "intro" then process_intro_section data toc n st
        else process_node_recursive data doc_type toc n none st
      match step with
      | .error () => .error ()
      | .ok st2 => process_document_structure data doc_type toc rest st2

unseal scanSub findEnd replaceSubAux in
/-- C4: the forward-looking figure token is resolved by the forward
scan only inside text blocks and list items; in a node title the
general placeholder resolution of line 969 runs first and erases the
token (a lookup miss becomes the empty string), so the dedicated
title branch of lines 971-981 never fires and the title of a node
whose block list starts with an image reads the empty string where
the claim promises the figure number. The second conjunct shows the
block path at the same input does resolve the token to the number of
the following image. -/
theorem c4_title_token_not_resolved :
    (has_image_block [Block.image "img.png" ""] = true ∧
      process_node_title ValEntries.nil
        (Node.mk "s1" ("Рисунок (" ++ IMG_TOKEN ++ ")") none Forest.nil
          (some [Block.image "img.png" ""])) 0 = .ok "Рисунок ()" ∧
      ("Рисунок ()" : String) ≠ "Рисунок (1)") ∧
    process_blocks ValEntries.nil
      [Block.text ("Рисунок (" ++ IMG_TOKEN ++ ")"), Block.image "img.png" ""]
      0 reset_document_counters =
      .ok { xml := [.para "Clause" "Рисунок (1)",
                    .image_frame 1 "Рисунок 1" "img.png"],
            table_counter := 0, image_counter := 1,
            document_bookmark_counter := 0 } :=
  ⟨⟨rfl, rfl, by decide⟩, rfl⟩

/-- Figure numbers carried by the image instructions of an output
stream, in emission order. -/
def imageNums : List Instr → List Nat
  | [] => []
  | .image_frame n _ _ :: rest => n :: imageNums rest
  | .image_missing n _ :: rest => n :: imageNums rest
  | _ :: rest => imageNums rest

/-- An image instruction displays its figure number: the caption
starts with the word for Figure followed by the number. Non-image
instructions satisfy the predicate vacuously. -/
def imageCapOK : Instr → Bool
  | .image_frame n cap _ => isPrefixList ("Рисунок " ++ toString n).data cap.data
  | .image_missing n cap => isPrefixList ("Рисунок " ++ toString n).data cap.data
  | _ => true

/-- Every image instruction of the stream displays its number. -/
def imagesOK : List Instr → Bool
  | [] => true
  | i :: rest => imageCapOK i && imagesOK rest

/-- A stream free of image instructions. -/
def imgFree : List Instr → Bool
  | [] => true
  | .image_frame _ _ _ :: _ => false
  | .image_missing _ _ :: _ => false
  | _ :: rest => imgFree rest

/-- Image numbers distribute over concatenation. -/
theorem imageNums_append : ∀ l1 l2 : List Instr,
    imageNums (l1 ++ l2) = imageNums l1 ++ imageNums l2 := by
  intro l1 l2
  induction l1 with
  | nil => rfl
  | cons i rest ih => cases i <;> simp [imageNums, ih]

/-- Caption soundness distributes over concatenation. -/
theorem imagesOK_append : ∀ l1 l2 : List Instr,
    imagesOK (l1 ++ l2) = (imagesOK l1 && imagesOK l2) := by
  intro l1 l2
  induction l1 with
  | nil => rfl
  | cons i rest ih => simp [imagesOK, ih, Bool.and_assoc]

/-- An image-free stream has no image numbers and sound captions. -/
theorem imgFree_spec : ∀ l : List Instr, imgFree l = true →
    imageNums l = [] ∧ imagesOK l = true := by
  intro l h
  induction l with
  | nil => exact ⟨rfl, rfl⟩
  | cons i rest ih =>
      cases i <;> simp_all [imgFree, imageNums, imagesOK, imageCapOK]

/-- A list is a prefix of itself followed by anything. -/
theorem isPrefixList_self_append : ∀ l m : List Char,
    isPrefixList l (l ++ m) = true := by
  intro l m
  induction l with
  | nil => rfl
  | cons c rest ih => simp [isPrefixList, ih]

/-- A list is a prefix of itself. -/
theorem isPrefixList_refl (l : List Char) : isPrefixList l l = true := by
  have := isPrefixList_self_append l []
  rwa [List.append_nil] at this

/-- Characters of an appended string. -/
theorem str_data_append (a b : String) : (a ++ b).data = a.data ++ b.data :=
  rfl

/-- Image bookkeeping between two emitter states: running a piece of
the emitter from the first state to the second emits exactly c images,
numbered consecutively from one past the incoming image counter, with
captions displaying those numbers, and advances the counter by c. -/
def ImgInv (st st2 : EmitState) (c : Nat) : Prop :=
  st2.image_counter = st.image_counter + c ∧
  imageNums st2.xml =
    imageNums st.xml ++ List.range' (st.image_counter + 1) c ∧
  (imagesOK st.xml = true → imagesOK st2.xml = true)

/-- A state maps to itself with no images. -/
theorem ImgInv_refl (st : EmitState) : ImgInv st st 0 :=
  ⟨rfl, by simp, fun h => h⟩

/-- Image bookkeeping composes. -/
theorem ImgInv_trans {st1 st2 st3 : EmitState} {a b : Nat}
    (h1 : ImgInv st1 st2 a) (h2 : ImgInv st2 st3 b) :
    ImgInv st1 st3 (a + b) := by
  obtain ⟨c1, n1, o1⟩ := h1
  obtain ⟨c2, n2, o2⟩ := h2
  refine ⟨by omega, ?_, fun h => o2 (o1 h)⟩
  rw [n2, n1, c1, List.append_assoc]
  congr 1
  have hs : st1.image_counter + a + 1 = st1.image_counter + 1 + 1 * a := by
    omega
  rw [hs, List.range'_append, Nat.add_comm b a]

/-- Count rewriting inside the invariant. -/
theorem ImgInv_congr_c {st st2 : EmitState} {c c2 : Nat}
    (h : ImgInv st st2 c) (e : c = c2) : ImgInv st st2 c2 := e ▸ h

/-- A step that keeps the image counter and only appends image-free
or no instructions emits no images. -/
theorem ImgInv_xml_only (st st2 : EmitState)
    (hic : st2.image_counter = st.image_counter)
    (hn : imageNums st2.xml = imageNums st.xml)
    (ho : imagesOK st.xml = true → imagesOK st2.xml = true) :
    ImgInv st st2 0 :=
  ⟨by omega, by simp [hn], ho⟩

/-- Appending an image-free tail emits no images. -/
theorem ImgInv_append0 (st : EmitState) (l : List Instr)
    (hfree : imgFree l = true) :
    ImgInv st { st with xml := st.xml ++ l } 0 := by
  obtain ⟨hn, ho⟩ := imgFree_spec l hfree
  exact ImgInv_xml_only _ _ rfl (by simp [imageNums_append, hn])
    (fun h => by simp [imagesOK_append, ho, h])

/-- One image emission advances the counter by one and appends one
image instruction carrying the new counter value, its caption opening
with the word for Figure and that number. -/
theorem process_image_img (data : ValEntries) (path caption : String)
    (st st2 : EmitState) (h : process_image data path caption st = .ok st2) :
    ImgInv st st2 1 := by
  simp only [process_image] at h
  split at h
  · cases h
  · rename_i image_caption heq
    cases h
    refine ⟨rfl, ?_, ?_⟩
    · rw [imageNums_append]
      congr 1
      split <;> simp [imageNums, List.range']
    · intro hok
      have hcap : isPrefixList
          ("Рисунок " ++ toString (st.image_counter + 1)).data
          image_caption.data = true := by
        split at heq
        · split at heq
          · cases heq
          · cases heq
            simp only [str_data_append]
            rw [List.append_assoc]
            exact isPrefixList_self_append _ _
        · cases heq
          exact isPrefixList_refl _
      rw [imagesOK_append, hok]
      simp only [Bool.true_and]
      split <;> simp only [imagesOK, imageCapOK, Bool.and_true] <;> exact hcap

/-- The table title is image-free. -/
theorem table_title_imgFree (data : ValEntries) (tn : String) (tc : Nat)
    (is : List Instr) (h : table_title_instrs data tn tc = .ok is) :
    imgFree is = true := by
  simp only [table_title_instrs] at h
  split at h
  · split at h
    · cases h
    · cases h; rfl
  · cases h; rfl

/-- The table header row is image-free. -/
theorem table_header_imgFree (data : ValEntries)
    (headers : List (Option String)) (is : List Instr)
    (h : table_header_instrs data headers = .ok is) : imgFree is = true := by
  simp only [table_header_instrs] at h
  split at h
  · split at h
    · cases h
    · cases h; rfl
  · cases h; rfl

/-- The text after a table is image-free. -/
theorem table_after_imgFree (data : ValEntries) (ta : String)
    (is : List Instr) (h : table_after_instrs data ta = .ok is) :
    imgFree is = true := by
  simp only [table_after_instrs] at h
  split at h
  · split at h
    · cases h
    · split at h
      · cases h; rfl
      · cases h; rfl
  · cases h; rfl

/-- The data rows of a table are image-free. -/
theorem table_rows_imgFree (data : ValEntries) (cc : Nat) :
    ∀ (rows : List (List (Option String))) (is : List Instr),
      table_rows_xml data cc rows = .ok is → imgFree is = true := by
  intro rows
  induction rows with
  | nil => intro is h; cases h; rfl
  | cons r rest ih =>
      intro is h
      simp only [table_rows_xml] at h
      split at h
      · exact ih is h
      · split at h
        · cases h
        · split at h
          · cases h
          · rename_i is0 heq
            cases h
            simpa [imgFree] using ih is0 heq

/-- The column instructions are image-free. -/
theorem imgFree_replicate_col : ∀ n : Nat,
    imgFree (List.replicate n Instr.table_column) = true := by
  intro n
  induction n with
  | zero => rfl
  | succ m ih => simpa [List.replicate_succ, imgFree] using ih

/-- A table emission leaves the image bookkeeping untouched and
advances the table counter by exactly one, headers or not. -/
theorem process_table_spec (data : ValEntries) (item : TableData)
    (st st2 : EmitState) (h : process_table data item st = .ok st2) :
    ImgInv st st2 0 ∧ st2.table_counter = st.table_counter + 1 := by
  simp only [process_table] at h
  split at h
  · cases h
  · rename_i title_instrs heqT
    generalize (if item.headers.length ≠ 0 then item.headers.length
      else max_row_len item.rows) = cc at h
    split at h
    · cases h
      refine ⟨ImgInv_xml_only _ _ rfl ?_ ?_, rfl⟩
      · have := (imgFree_spec _ (table_title_imgFree _ _ _ _ heqT)).1
        simp [imageNums_append, this]
      · intro hok
        have := (imgFree_spec _ (table_title_imgFree _ _ _ _ heqT)).2
        simp [imagesOK_append, this, hok]
    · split at h
      · cases h
      · rename_i header_instrs heqH
        split at h
        · cases h
        · rename_i row_instrs heqR
          split at h
          · cases h
          · rename_i after_instrs heqA
            cases h
            have f1 := imgFree_spec _ (table_title_imgFree _ _ _ _ heqT)
            have f2 := imgFree_spec _ (table_header_imgFree _ _ _ heqH)
            have f3 := imgFree_spec _ (table_rows_imgFree _ _ _ _ heqR)
            have f4 := imgFree_spec _ (table_after_imgFree _ _ _ heqA)
            have f5 := imgFree_spec _ (imgFree_replicate_col cc)
            refine ⟨ImgInv_xml_only _ _ rfl ?_ ?_, rfl⟩
            · simp [imageNums_append, f1.1, f2.1, f3.1, f4.1, f5.1, imageNums]
            · intro hok
              simp [imagesOK_append, f1.2, f2.2, f3.2, f4.2, f5.2, hok,
                imagesOK, imageCapOK]

/-- A text block emits no images. -/
theorem process_text_block_img (data : ValEntries)
    (positions : List (Nat × Nat)) (i parent_level : Nat)
    (text_content : String) (st st2 : EmitState)
    (h : process_text_block data positions i parent_level text_content st =
      .ok st2) : ImgInv st st2 0 := by
  simp only [process_text_block] at h
  split at h
  · cases h
  · split at h
    · cases h
      exact ImgInv_append0 st _ (by rfl)
    · cases h
      exact ImgInv_refl st

/-- List items emit no images. -/
theorem process_list_items_img (data : ValEntries)
    (positions : List (Nat × Nat)) (i parent_level : Nat) (style : String)
    (total : Nat) :
    ∀ (items : List String) (idx : Nat) (st st2 : EmitState),
      process_list_items data positions i parent_level style total items idx
        st = .ok st2 → ImgInv st st2 0 := by
  intro items
  induction items with
  | nil =>
      intro idx st st2 h
      cases h
      exact ImgInv_refl st
  | cons item rest ih =>
      intro idx st st2 h
      simp only [process_list_items] at h
      split at h
      · cases h
      · split at h
        · exact ImgInv_trans (ImgInv_append0 st _ (by rfl)) (ih _ _ _ h)
        · exact ih _ _ _ h

/-- Count of the image blocks of one block list. -/
def blocks_image_count : List Block → Nat
  | [] => 0
  | b :: rest => (if isImageBlock b then 1 else 0) + blocks_image_count rest

/-- The block loop emits exactly the image blocks of its list, in
order, with consecutive numbers from the incoming counter. -/
theorem process_blocks_go_img (data : ValEntries)
    (positions : List (Nat × Nat)) (parent_level : Nat) :
    ∀ (blocks : List Block) (i : Nat) (st st2 : EmitState),
      process_blocks_go data positions parent_level blocks i st = .ok st2 →
      ImgInv st st2 (blocks_image_count blocks) := by
  intro blocks
  induction blocks with
  | nil =>
      intro i st st2 h
      cases h
      exact ImgInv_refl st
  | cons b rest ih =>
      intro i st st2 h
      cases b with
      | nondict s =>
          simp only [process_blocks_go] at h
          split at h
          · cases h
          · rename_i stm heqS
            have h1 : ImgInv st stm 0 := by
              split at heqS
              · cases heqS
              · split at heqS
                · cases heqS; exact ImgInv_append0 st _ (by rfl)
                · cases heqS; exact ImgInv_refl st
            exact ImgInv_congr_c (ImgInv_trans h1 (ih _ _ _ h))
              (by simp [blocks_image_count, isImageBlock])
      | text s =>
          simp only [process_blocks_go] at h
          split at h
          · cases h
          · rename_i stm heqS
            have h1 : ImgInv st stm 0 :=
              process_text_block_img _ _ _ _ _ _ _ heqS
            exact ImgInv_congr_c (ImgInv_trans h1 (ih _ _ _ h))
              (by simp [blocks_image_count, isImageBlock])
      | list style items =>
          simp only [process_blocks_go] at h
          split at h
          · cases h
          · rename_i stm heqS
            have h1 : ImgInv st stm 0 :=
              process_list_items_img _ _ _ _ _ _ _ _ _ _ heqS
            exact ImgInv_congr_c (ImgInv_trans h1 (ih _ _ _ h))
              (by simp [blocks_image_count, isImageBlock])
      | table t =>
          simp only [process_blocks_go] at h
          split at h
          · cases h
          · rename_i stm heqS
            have h1 : ImgInv st stm 0 := (process_table_spec _ _ _ _ heqS).1
            exact ImgInv_congr_c (ImgInv_trans h1 (ih _ _ _ h))
              (by simp [blocks_image_count, isImageBlock])
      | image path caption =>
          simp only [process_blocks_go] at h
          split at h
          · cases h
          · rename_i stm heqS
            have h1 : ImgInv st stm 1 := process_image_img _ _ _ _ _ heqS
            exact ImgInv_congr_c (ImgInv_trans h1 (ih _ _ _ h))
              (by simp [blocks_image_count, isImageBlock])
      | page_break =>
          simp only [process_blocks_go] at h
          have h1 : ImgInv st { st with xml := st.xml ++ [Instr.page_break] }
              0 := ImgInv_append0 st _ (by rfl)
          exact ImgInv_congr_c (ImgInv_trans h1 (ih _ _ _ h))
            (by simp [blocks_image_count, isImageBlock])
      | otherdict =>
          simp only [process_blocks_go] at h
          exact ImgInv_congr_c (ih _ _ _ h)
            (by simp [blocks_image_count, isImageBlock])

/-- A whole block list emits exactly its image blocks. -/
theorem process_blocks_img (data : ValEntries) (blocks : List Block)
    (parent_level : Nat) (st st2 : EmitState)
    (h : process_blocks data blocks parent_level st = .ok st2) :
    ImgInv st st2 (blocks_image_count blocks) :=
  process_blocks_go_img data _ parent_level blocks 0 st st2 h

/-- A node header is image-free. -/
theorem node_header_imgFree (doc_type : Option String)
    (toc : Option (TocCfg × TocState)) (node_id node_name node_number : String)
    (level : Nat) :
    imgFree (node_header doc_type toc node_id node_name node_number level) =
      true := by
  simp only [node_header]
  split
  · split <;> rfl
  · rfl

/-- Image blocks behind an optional blocks key. -/
def blocks_count_opt : Option (List Block) → Nat
  | some bl => blocks_image_count bl
  | none => 0

mutual
/-- Image blocks the emitter encounters in one node's subtree: zero
on a service node (skipped with its subtree), otherwise its own block
list plus, when a children key is present, the children. -/
def node_image_count : Node → Nat
  | .mk i _ ck cs blocks =>
      if isServiceId i then 0
      else
        blocks_count_opt blocks +
          (match ck with
           | some _ => forest_image_count cs
           | none => 0)

/-- Image blocks the emitter encounters in a sibling array. -/
def forest_image_count : Forest → Nat
  | .nil => 0
  | .cons n rest => node_image_count n + forest_image_count rest
end

/-- Appending an image-free batch emits no images. -/
theorem ImgInv_push (st : EmitState) (l : List Instr)
    (hfree : imgFree l = true) : ImgInv st (push_instrs st l) 0 :=
  ImgInv_append0 st l hfree

mutual
/-- The node walk emits exactly the images of the node's subtree, in
document order, consecutively numbered from the incoming counter. -/
theorem process_node_img (data : ValEntries) (doc_type : Option String)
    (toc : Option (TocCfg × TocState)) (n : Node)
    (parent_level : Option Nat) (st st2 : EmitState) :
    process_node_recursive data doc_type toc n parent_level st = .ok st2 →
    ImgInv st st2 (node_image_count n) := by
  match n with
  | .mk node_id rawname ck cs blocks =>
      intro h
      simp only [process_node_recursive] at h
      split at h
      · rename_i hsvc
        cases h
        exact ImgInv_congr_c (ImgInv_refl st)
          (by simp [node_image_count, hsvc])
      · rename_i hsvc
        split at h
        · cases h
        · rename_i node_name heqT
          split at h
          · cases h
          · rename_i st1 heqB
            have h1 : ImgInv st st1 (0 + blocks_count_opt blocks) := by
              cases blocks with
              | some bl =>
                  exact ImgInv_trans
                    (ImgInv_push st _ (node_header_imgFree _ _ _ _ _ _))
                    (process_blocks_img _ _ _ _ _ heqB)
              | none =>
                  injection heqB with heqB2
                  rw [← heqB2]
                  exact ImgInv_push st _ (node_header_imgFree _ _ _ _ _ _)
            split at h
            · rename_i ckv
              exact ImgInv_congr_c
                (ImgInv_trans h1
                  (process_forest_img data doc_type toc cs _ st1 st2 h))
                (by simp [node_image_count, hsvc])
            · cases h
              exact ImgInv_congr_c h1 (by simp [node_image_count, hsvc])

/-- The sibling loop emits exactly the images of the array. -/
theorem process_forest_img (data : ValEntries) (doc_type : Option String)
    (toc : Option (TocCfg × TocState)) (f : Forest) (parent_level : Nat)
    (st st2 : EmitState) :
    process_forest_recursive data doc_type toc f parent_level st = .ok st2 →
    ImgInv st st2 (forest_image_count f) := by
  match f with
  | .nil =>
      intro h
      simp only [process_forest_recursive] at h
      cases h
      exact ImgInv_refl st
  | .cons n rest =>
      intro h
      simp only [process_forest_recursive] at h
      split at h
      · cases h
      · rename_i stm heqN
        exact ImgInv_congr_c
          (ImgInv_trans (process_node_img data doc_type toc n
              (some parent_level) st stm heqN)
            (process_forest_img data doc_type toc rest parent_level stm st2 h))
          (by simp [forest_image_count])
end

/-- Image blocks the intro section emits: only its own block list,
since _process_intro_section never recurses into children. -/
def intro_image_count (n : Node) : Nat :=
  blocks_count_opt n.blocks

/-- The intro section emits exactly the images of its own block list. -/
theorem process_intro_img (data : ValEntries)
    (toc : Option (TocCfg × TocState)) (n : Node) (st st2 : EmitState) :
    process_intro_section data toc n st = .ok st2 →
    ImgInv st st2 (intro_image_count n) := by
  match n with
  | .mk node_id rawname ck cs blocks =>
      intro h
      simp only [process_intro_section] at h
      split at h
      · cases h
      · rename_i stm heqB
        cases h
        have h1 : ImgInv st stm (0 + blocks_count_opt blocks) := by
          cases blocks with
          | some bl =>
              exact ImgInv_trans
                (ImgInv_push st _ (node_header_imgFree _ _ _ _ _ _))
                (process_blocks_img _ _ _ _ _ heqB)
          | none =>
              injection heqB with heqB2
              rw [← heqB2]
              exact ImgInv_push st _ (node_header_imgFree _ _ _ _ _ _)
        exact ImgInv_congr_c
          (ImgInv_trans h1 (ImgInv_push stm [Instr.page_break] (by rfl)))
          (by simp [intro_image_count, Node.blocks, blocks_count_opt])

/-- Image blocks a whole build emits: per root, the intro contributes
its own block list only, every other root its full subtree with
service nodes skipped. -/
def doc_image_count : Forest → Nat
  | .nil => 0
  | .cons n rest =>
      (if n.id = "intro" then intro_image_count n else node_image_count n) +
        doc_image_count rest

/-- A whole build emits exactly the images it encounters, in document
order, consecutively numbered from the incoming counter. -/
theorem process_document_img (data : ValEntries) (doc_type : Option String)
    (toc : Option (TocCfg × TocState)) (f : Forest) (st st2 : EmitState) :
    process_document_structure data doc_type toc f st = .ok st2 →
    ImgInv st st2 (doc_image_count f) := by
  match f with
  | .nil =>
      intro h
      simp only [process_document_structure] at h
      cases h
      exact ImgInv_refl st
  | .cons n rest =>
      intro h
      simp only [process_document_structure] at h
      split at h
      · cases h
      · rename_i stm heqN
        have h2 := process_document_img data doc_type toc rest stm st2 h
        have h1 : ImgInv st stm
            (if n.id = "intro" then intro_image_count n
             else node_image_count n) := by
          split at heqN
          · rename_i hid
            rw [if_pos hid]
            exact process_intro_img data toc n st stm heqN
          · rename_i hid
            rw [if_neg hid]
            exact process_node_img data doc_type toc n none st stm heqN
        exact ImgInv_congr_c (ImgInv_trans h1 h2) (by simp [doc_image_count])

/-- C6 counterexample: a tree whose single root is the service node
title_page holding one image block contains exactly one image block,
yet the build succeeds emitting nothing and leaves the image counter
at zero, so the counter does not equal the number of image blocks of
the tree. -/
theorem c6_service_image_counterexample :
    blocks_image_count [Block.image "p.png" ""] = 1 ∧
    reset_document_counters.image_counter = 0 ∧
    process_document_structure .nil none none
      (.cons (.mk "title_page" "Титульный лист" none .nil
        (some [Block.image "p.png" ""])) .nil)
      reset_document_counters = .ok reset_document_counters :=
  ⟨rfl, rfl, rfl⟩

/-- C6: in any successful build started from freshly reset counters,
the final image counter equals the number of image blocks the emitter
encounters (service subtrees and the children of the intro root are
excluded), the image instructions carry the numbers 1, 2, ... in
document order, and every caption displays its number, so the Jth
emitted image receives figure number J independently of any declared
attribute. -/
theorem c6_image_numbering_amended (data : ValEntries)
    (doc_type : Option String) (toc : Option (TocCfg × TocState))
    (f : Forest) (st2 : EmitState)
    (h : process_document_structure data doc_type toc f
      reset_document_counters = .ok st2) :
    st2.image_counter = doc_image_count f ∧
    imageNums st2.xml = List.range' 1 (doc_image_count f) ∧
    imagesOK st2.xml = true := by
  obtain ⟨hc, hn, ho⟩ := process_document_img data doc_type toc f
    reset_document_counters st2 h
  refine ⟨by simpa [reset_document_counters] using hc, ?_, ho rfl⟩
  simpa [reset_document_counters, imageNums] using hn

/-- Concrete build input for the C6 witness: an intro with one image
block and one child (whose image the intro walk must not emit, the
child being unreachable from _process_intro_section), then a section
with a text block and a child subsection holding the second image. -/
def c6WitnessForest : Forest :=
  .cons (.mk "intro" "Введение" (some .subsections)
      (.cons (.mk "x1" "Скрытый" none .nil
        (some [Block.image "h.png" ""])) .nil)
      (some [Block.image "a.png" "Схема"]))
    (.cons (.mk "s1" "Общие сведения" (some .subsections)
        (.cons (.mk "s11" "Структура" none .nil
          (some [Block.image "b.png" ""])) .nil)
        (some [Block.text "См. рисунок."]))
      .nil)

/-- The run of the build on the witness forest. -/
def c6WitnessRun : Except Unit EmitState :=
  process_document_structure .nil none none c6WitnessForest
    reset_document_counters

/-- The state the witness build ends in. -/
def c6WitnessState : EmitState :=
  match c6WitnessRun with
  | .ok s => s
  | .error () => reset_document_counters

unseal scanSub findEnd in
/-- C6 witness: on the concrete two-image build the counter ends at
two (the image under the intro child is skipped), and the emitted
image instructions are numbered 1, 2 with sound captions. -/
theorem c6_image_numbering_amended_witness :
    doc_image_count c6WitnessForest = 2 ∧
    c6WitnessState.image_counter = doc_image_count c6WitnessForest ∧
    imageNums c6WitnessState.xml =
      List.range' 1 (doc_image_count c6WitnessForest) ∧
    imagesOK c6WitnessState.xml = true :=
  ⟨rfl,
   (c6_image_numbering_amended .nil none none c6WitnessForest
     c6WitnessState rfl).1,
   (c6_image_numbering_amended .nil none none c6WitnessForest
     c6WitnessState rfl).2.1,
   (c6_image_numbering_amended .nil none none c6WitnessForest
     c6WitnessState rfl).2.2⟩

/-- Rows whose cell count differs from the column count are invisible
to the row loop: it emits exactly what it would emit on the list of
well-sized rows, in their original order. -/
theorem table_rows_filter (data : ValEntries) (cc : Nat) :
    ∀ rows : List (List (Option String)),
      table_rows_xml data cc rows =
        table_rows_xml data cc
          (rows.filter (fun r => r.length = cc)) := by
  intro rows
  induction rows with
  | nil => rfl
  | cons r rest ih =>
      by_cases hlen : r.length = cc
      · have hfil : List.filter (fun r => decide (r.length = cc)) (r :: rest)
            = r :: List.filter (fun r => decide (r.length = cc)) rest := by
          simp [List.filter_cons, hlen]
        rw [hfil]
        simp only [table_rows_xml]
        rw [if_neg (fun hc => hc hlen), if_neg (fun hc => hc hlen), ih]
      · have hfil : List.filter (fun r => decide (r.length = cc)) (r :: rest)
            = List.filter (fun r => decide (r.length = cc)) rest := by
          simp [List.filter_cons, hlen]
        rw [hfil]
        simp only [table_rows_xml]
        rw [if_pos hlen, ih]

/-- C10: with a nonempty header list, emission of a table block is
identical on the original rows and on the rows filtered to those
whose cell count equals the header count, so a mis-sized row
contributes no output instruction, no error and no warning and the
well-sized rows keep their original order; and a successful table
emission advances the table counter by exactly one. -/
theorem c10_row_skipping (data : ValEntries) (nm : Option String)
    (headers : List (Option String)) (rows : List (List (Option String)))
    (ta : String) (st st2 : EmitState) (hhd : headers ≠ []) :
    process_table data (TableData.mk nm headers rows ta) st =
      process_table data
        (TableData.mk nm headers
          (rows.filter (fun r => r.length = headers.length)) ta) st ∧
    (process_table data (TableData.mk nm headers rows ta) st = .ok st2 →
      st2.table_counter = st.table_counter + 1) := by
  constructor
  · have hne : headers.length ≠ 0 :=
      fun h0 => hhd (List.eq_nil_of_length_eq_zero h0)
    simp only [process_table]
    have hA : (if headers.length ≠ 0 then headers.length
        else max_row_len rows) = headers.length := if_pos hne
    have hB : (if headers.length ≠ 0 then headers.length
        else max_row_len
          (rows.filter (fun r => r.length = headers.length))) =
        headers.length := if_pos hne
    rw [hA, hB, table_rows_filter data headers.length rows]
  · intro h
    exact (process_table_spec data _ st st2 h).2

/-- The table block of the C10 witness: two headers, a well-sized
first row, a one-cell second row, a well-sized third row. -/
def c10Item : TableData :=
  .mk (some "Свойства") [some "А", some "Б"]
    [[some "1", some "2"], [some "x"], [some "3", some "4"]] ""

/-- The run of the table emission on the witness block. -/
def c10Run : Except Unit EmitState :=
  process_table .nil c10Item reset_document_counters

/-- The state the witness table emission ends in. -/
def c10State : EmitState :=
  match c10Run with
  | .ok s => s
  | .error () => reset_document_counters

unseal scanSub findEnd in
/-- C10 witness: on the concrete table the emission equals the
emission of the two well-sized rows alone and the table counter ends
at one. -/
theorem c10_row_skipping_witness :
    process_table .nil c10Item reset_document_counters =
      process_table .nil
        (TableData.mk (some "Свойства") [some "А", some "Б"]
          [[some "1", some "2"], [some "3", some "4"]] "")
        reset_document_counters ∧
    c10State.table_counter = 1 :=
  ⟨(c10_row_skipping .nil (some "Свойства") [some "А", some "Б"]
      [[some "1", some "2"], [some "x"], [some "3", some "4"]] ""
      reset_document_counters c10State (by simp)).1,
   (c10_row_skipping .nil (some "Свойства") [some "А", some "Б"]
      [[some "1", some "2"], [some "x"], [some "3", some "4"]] ""
      reset_document_counters c10State (by simp)).2 rfl⟩
